import Mathlib

/-!
Verification development for the log-analysis tool in `fill_form.py`.

The program extracts two JSON payloads (a shipping-rate request and response)
from noisy log text, normalizes them, and renders a report.  This file gives a
shallow embedding of the core pipeline — sanitizer, brace-balanced collector,
marker extractor, payload resolver, field normalizer — and proves the frozen
claims about it.

Modelling conventions:
- Python strings are `List Char`; a log file is a `List (List Char)` of lines
  (the state after `text.splitlines()`; lines contain no newline characters).
- Python `None` and JSON `null` are both `Json.null`, exactly as in Python
  where `json.loads("null")` is `None` and `dict.get` of a missing key is
  `None`.
- Functions that can raise are `Option`-valued (`none` = raises); where the
  source catches exceptions and keeps a partial result, the model returns the
  partial result explicitly.
- Recursive scans that Python performs with unbounded loops are written with
  explicit fuel, structurally recursive on the fuel, with the top-level entry
  point supplying fuel that is provably sufficient (each step consumes at
  least one character / one node, and the fuel is the length / size of the
  input).  This keeps every definition kernel-computable.
-/

/-- The JSON value tree produced by `json.loads`.  Numbers keep the matched
source lexeme (the claims below never depend on numeric semantics beyond
zero-ness, which is decidable from the lexeme).  Objects are insertion-ordered
field lists without duplicate keys: the parser inserts with
overwrite-in-place, exactly as a Python `dict` built by repeated assignment
does. -/
inductive Json where
  | null : Json
  | bool (b : Bool) : Json
  | num (lexeme : List Char) : Json
  | str (s : List Char) : Json
  | arr (elems : List Json) : Json
  | obj (fields : List (List Char × Json)) : Json

/-! ## Character and string helpers -/

/-- JSON insignificant whitespace, the character class Python's `json` module
skips between tokens (`' \t\n\r'`). -/
def isJsonWs (c : Char) : Bool :=
  c = ' ' || c = '\t' || c = '\n' || c = '\r'

/-- Whitespace as stripped by Python's `str.lstrip()` (ASCII whitespace;
the unicode whitespace classes never occur in these logs). -/
def isPyWs (c : Char) : Bool :=
  c = ' ' || c = '\t' || c = '\n' || c = '\r' || c = '\x0b' || c = '\x0c'

/-- Model of Python `str.lower()`, restricted to ASCII (sufficient for the
marker tests in the source, which compare ASCII vendor names). -/
def lowerChar (c : Char) : Char :=
  if 'A' ≤ c ∧ c ≤ 'Z' then Char.ofNat (c.toNat + 32) else c

/-- Model of Python `line.lower()`. -/
def lowerStr (s : List Char) : List Char := s.map lowerChar

/-- Model of the Python substring test `needle in hay`. -/
def containsSub (needle hay : List Char) : Bool :=
  hay.tails.any (fun t => needle.isPrefixOf t)

/-- Model of Python `"\n".join(blocks)`. -/
def joinNL : List (List Char) → List Char
  | [] => []
  | [l] => l
  | l :: ls => l ++ '\n' :: joinNL ls

/-! ## Sanitizer (`sanitize_json_block`)

The source first deletes ANSI CSI sequences with
`re.sub` of the ANSI pattern (ESC, one byte 0x40..0x5F, then bytes
0x30..0x3F, then bytes 0x20..0x2F, then one byte 0x40..0x7E) and then runs one forward
pass over the characters with `in_string` / `escape_next` state. -/

/-- Character class 0x40..0x5F of the ANSI regex. -/
def isAnsiIntro (c : Char) : Bool := 0x40 ≤ c.toNat ∧ c.toNat ≤ 0x5F

/-- Character class 0x30..0x3F of the ANSI regex. -/
def isAnsiParam (c : Char) : Bool := 0x30 ≤ c.toNat ∧ c.toNat ≤ 0x3F

/-- Character class 0x20..0x2F of the ANSI regex. -/
def isAnsiInterm (c : Char) : Bool := 0x20 ≤ c.toNat ∧ c.toNat ≤ 0x2F

/-- Character class 0x40..0x7E of the ANSI regex. -/
def isAnsiFinal (c : Char) : Bool := 0x40 ≤ c.toNat ∧ c.toNat ≤ 0x7E

/-- Try to match the ANSI regex at the head of
`cs`; on a match return the remainder after the matched text.  The three
character classes are pairwise disjoint, so the greedy matching of `re` needs
no backtracking and this direct scan is exact. -/
def ansiRest (cs : List Char) : Option (List Char) :=
  match cs with
  | '\x1b' :: c2 :: rest =>
    if isAnsiIntro c2 then
      match (rest.dropWhile isAnsiParam).dropWhile isAnsiInterm with
      | f :: r3 => if isAnsiFinal f then some r3 else none
      | [] => none
    else none
  | _ => none

/-- One left-to-right pass of `re.sub(ansi, '', block)`: at each position,
remove a match if one starts there, otherwise keep the character and move on.
Fuel-recursive; each step strictly shortens the input, so fuel = length at
the entry point `stripAnsi` is exact. -/
def stripAnsiF : Nat → List Char → List Char
  | 0, cs => cs
  | _ + 1, [] => []
  | n + 1, c :: rest =>
    match ansiRest (c :: rest) with
    | some r => stripAnsiF n r
    | none => c :: stripAnsiF n rest

/-- Model of the `re.sub` call removing ANSI escape sequences. -/
def stripAnsi (cs : List Char) : List Char := stripAnsiF cs.length cs

/-- The character loop of `sanitize_json_block`, with the `in_string` and
`escape_next` flags as arguments.  Branches are in the order the source tests
them. -/
def sanLoop : Bool → Bool → List Char → List Char
  | _, _, [] => []
  | inS, true, c :: rest =>
    -- escape_next: append the escaped character literally
    c :: sanLoop inS false rest
  | inS, false, c :: rest =>
    if c = '\\' then c :: sanLoop inS true rest
    else if c = '"' then c :: sanLoop (!inS) false rest
    else if inS then
      if c = '\n' then '\\' :: 'n' :: sanLoop inS false rest
      else if c = '\r' then '\\' :: 'r' :: sanLoop inS false rest
      else if c.toNat < 32 then ' ' :: sanLoop inS false rest
      else c :: sanLoop inS false rest
    else
      if c = '\r' then sanLoop inS false rest
      else if c.toNat < 32 ∧ c ≠ '\n' ∧ c ≠ '\t' then sanLoop inS false rest
      else c :: sanLoop inS false rest

/-- Model of `sanitize_json_block`. -/
def sanitize_json_block (cs : List Char) : List Char :=
  sanLoop false false (stripAnsi cs)

/-! ## JSON decoding (`json.loads`)

Modelled from the spec: the source calls the Python standard library's
`json.loads` (strict mode, default settings), which is not part of this
repository.  The parser below follows RFC 8259 plus CPython's documented
extensions (`NaN`, `Infinity`, `-Infinity`), rejects raw control characters
inside strings (strict mode), requires the whole input to be one value
surrounded only by whitespace, and builds objects with dict semantics (a
repeated key overwrites in place).  `\uXXXX` escapes are decoded code unit by
code unit; CPython's pairing of surrogate escapes is not reproduced (no claim
depends on it, and these code points cannot appear in `Char`). -/

def isDigitC (c : Char) : Bool := '0' ≤ c ∧ c ≤ '9'

def isHexC (c : Char) : Bool :=
  isDigitC c || ('a' ≤ c ∧ c ≤ 'f') || ('A' ≤ c ∧ c ≤ 'F')

def hexVal (c : Char) : Nat :=
  if isDigitC c then c.toNat - '0'.toNat
  else if 'a' ≤ c ∧ c ≤ 'f' then c.toNat - 'a'.toNat + 10
  else c.toNat - 'A'.toNat + 10

/-- Skip JSON insignificant whitespace. -/
def skipWs (cs : List Char) : List Char := cs.dropWhile isJsonWs

/-- The single-character escapes accepted inside a JSON string. -/
def decodeEsc (c : Char) : Option Char :=
  if c = '"' then some '"'
  else if c = '\\' then some '\\'
  else if c = '/' then some '/'
  else if c = 'b' then some '\x08'
  else if c = 'f' then some '\x0c'
  else if c = 'n' then some '\n'
  else if c = 'r' then some '\r'
  else if c = 't' then some '\t'
  else none

/-- Parse the body of a string literal, after the opening quote has been
consumed.  Returns the decoded content and the remainder after the closing
quote.  Strict mode: a raw control character (code point < 32) is an error.
Fuel-recursive; each step consumes at least one character. -/
def parseStrF : Nat → List Char → Option (List Char × List Char)
  | 0, _ => none
  | _ + 1, [] => none
  | n + 1, c :: rest =>
    if c = '"' then some ([], rest)
    else if c = '\\' then
      match rest with
      | [] => none
      | 'u' :: r2 =>
        match r2 with
        | h1 :: h2 :: h3 :: h4 :: r3 =>
          if isHexC h1 && isHexC h2 && isHexC h3 && isHexC h4 then
            (parseStrF n r3).map (fun p =>
              (Char.ofNat (((hexVal h1 * 16 + hexVal h2) * 16 + hexVal h3) * 16 + hexVal h4)
                :: p.1, p.2))
          else none
        | _ => none
      | e :: r2 =>
        match decodeEsc e with
        | some d => (parseStrF n r2).map (fun p => (d :: p.1, p.2))
        | none => none
    else if c.toNat < 32 then none
    else (parseStrF n rest).map (fun p => (c :: p.1, p.2))

/-- Optional fraction part `.digits+`; if the dot is not followed by a digit
the group does not match and nothing is consumed (as with the optional regex
group CPython uses). -/
def tryFrac (cs : List Char) : Option (List Char × List Char) :=
  match cs with
  | '.' :: t =>
    match t.takeWhile isDigitC with
    | [] => none
    | ds => some ('.' :: ds, t.dropWhile isDigitC)
  | _ => none

/-- Optional exponent part `[eE][+-]?digits+`, again consumed only when
complete. -/
def tryExp (cs : List Char) : Option (List Char × List Char) :=
  match cs with
  | e :: t =>
    if e = 'e' ∨ e = 'E' then
      match t with
      | '+' :: u =>
        (match u.takeWhile isDigitC with
         | [] => none
         | ds => some (e :: '+' :: ds, u.dropWhile isDigitC))
      | '-' :: u =>
        (match u.takeWhile isDigitC with
         | [] => none
         | ds => some (e :: '-' :: ds, u.dropWhile isDigitC))
      | _ =>
        (match t.takeWhile isDigitC with
         | [] => none
         | ds => some (e :: ds, t.dropWhile isDigitC))
    else none
  | [] => none

/-- The optional fraction and exponent groups after an integer part whose
lexeme is `intPart`. -/
def parseNumTail (intPart : List Char) (cs : List Char) :
    Option (List Char × List Char) :=
  match tryFrac cs with
  | some (f, r1) =>
    (match tryExp r1 with
     | some (x, r2) => some (intPart ++ f ++ x, r2)
     | none => some (intPart ++ f, r1))
  | none =>
    (match tryExp cs with
     | some (x, r2) => some (intPart ++ x, r2)
     | none => some (intPart, cs))

/-- The unsigned part of a number lexeme: `0` or `[1-9]digits*`, then the
optional groups. -/
def parseNumCore (cs : List Char) : Option (List Char × List Char) :=
  match cs with
  | [] => none
  | d :: t =>
    if d = '0' then parseNumTail ['0'] t
    else if isDigitC d then
      parseNumTail (d :: t.takeWhile isDigitC) (t.dropWhile isDigitC)
    else none

/-- Parse a number lexeme `-?(0|[1-9]digits*)(frac)?(exp)?` starting at the
head of `cs`. -/
def parseNum (cs : List Char) : Option (List Char × List Char) :=
  match cs with
  | '-' :: t => (parseNumCore t).map (fun p => ('-' :: p.1, p.2))
  | _ => parseNumCore cs

/-- Consume the literal `lit` from the head of `cs`. -/
def dropLit (lit cs : List Char) : Option (List Char) :=
  if lit.isPrefixOf cs then some (cs.drop lit.length) else none

/-- Insert a field into an object under Python dict-assignment semantics:
an existing key keeps its position and gets the new value, a new key is
appended. -/
def insertField : List (List Char × Json) → List Char → Json → List (List Char × Json)
  | [], k, v => [(k, v)]
  | (k', v') :: rest, k, v =>
    if k' = k then (k', v) :: rest else (k', v') :: insertField rest k v

mutual

/-- Parse one JSON value starting at `cs` (after skipping whitespace).
Fuel-recursive like CPython's recursive-descent scanner; every recursive call
strictly consumes input, so fuel = length + 1 at `jsonLoads` is sufficient. -/
def parseValueF : Nat → List Char → Option (Json × List Char)
  | 0, _ => none
  | n + 1, cs =>
    match skipWs cs with
    | [] => none
    | c :: rest =>
      if c = '{' then
        match skipWs rest with
        | '}' :: r => some (Json.obj [], r)
        | _ => (parseObjRestF n rest []).map (fun p => (Json.obj p.1, p.2))
      else if c = '[' then
        match skipWs rest with
        | ']' :: r => some (Json.arr [], r)
        | _ => (parseArrRestF n rest []).map (fun p => (Json.arr p.1, p.2))
      else if c = '"' then
        (parseStrF rest.length.succ rest).map (fun p => (Json.str p.1, p.2))
      else if c = 't' then
        (dropLit "rue".data rest).map (fun r => (Json.bool true, r))
      else if c = 'f' then
        (dropLit "alse".data rest).map (fun r => (Json.bool false, r))
      else if c = 'n' then
        (dropLit "ull".data rest).map (fun r => (Json.null, r))
      else if c = 'N' then
        (dropLit "aN".data rest).map (fun r => (Json.num "NaN".data, r))
      else if c = 'I' then
        (dropLit "nfinity".data rest).map (fun r => (Json.num "Infinity".data, r))
      else if c = '-' && "Infinity".data.isPrefixOf rest then
        some (Json.num "-Infinity".data, rest.drop 8)
      else
        (parseNum (c :: rest)).map (fun p => (Json.num p.1, p.2))

/-- Parse the members of an object after `{` (first member not yet consumed,
object known to be non-empty). -/
def parseObjRestF : Nat → List Char → List (List Char × Json) →
    Option (List (List Char × Json) × List Char)
  | 0, _, _ => none
  | n + 1, cs, acc =>
    match skipWs cs with
    | '"' :: t =>
      match parseStrF t.length.succ t with
      | none => none
      | some (key, r1) =>
        match skipWs r1 with
        | ':' :: r2 =>
          match parseValueF n r2 with
          | none => none
          | some (v, r3) =>
            match skipWs r3 with
            | ',' :: r4 => parseObjRestF n r4 (insertField acc key v)
            | '}' :: r4 => some (insertField acc key v, r4)
            | _ => none
        | _ => none
    | _ => none

/-- Parse the elements of an array after `[` (array known non-empty). -/
def parseArrRestF : Nat → List Char → List Json → Option (List Json × List Char)
  | 0, _, _ => none
  | n + 1, cs, acc =>
    match parseValueF n cs with
    | none => none
    | some (v, r1) =>
      match skipWs r1 with
      | ',' :: r2 => parseArrRestF n r2 (acc ++ [v])
      | ']' :: r2 => some (acc ++ [v], r2)
      | _ => none

end

/-- Model of `json.loads`: one value, with only whitespace allowed after it
("Extra data" otherwise). -/
def jsonLoads (cs : List Char) : Option Json :=
  (parseValueF (cs.length + 1) cs).bind
    (fun p => if (skipWs p.2).isEmpty then some p.1 else none)

example : jsonLoads "\x7b\"cart\": [1, 2.5e3, true], \"d\": null\x7d".data =
    some (Json.obj [("cart".data, Json.arr [Json.num ['1'], Json.num "2.5e3".data,
      Json.bool true]), (['d'], Json.null)]) := rfl

example : jsonLoads " \x7b\x7d ".data = some (Json.obj []) := rfl

example : jsonLoads "\x7b\"a\": 1".data = none := rfl

example : jsonLoads "\x7b\"a\": 1, \"a\": 2\x7d".data =
    some (Json.obj [(['a'], Json.num ['2'])]) := rfl

/-! ## Python value semantics on decoded JSON

`json.loads` maps JSON values onto Python `None` / `bool` / numbers / `str` /
`list` / `dict`; the source then manipulates them with Python truthiness,
`dict.get`, subscripting and iteration.  These helpers model exactly those
operations on the `Json` tree. -/

/-- A numeric lexeme denotes zero iff every digit of its mantissa is `0`
(sign and exponent are irrelevant); `NaN` and the infinities contain nonzero
letters and are truthy, as in Python. -/
def numIsZero (lex : List Char) : Bool :=
  ((lex.dropWhile (fun c => c = '-')).takeWhile (fun c => c ≠ 'e' ∧ c ≠ 'E')).all
    (fun c => c = '0' ∨ c = '.')

/-- Python truthiness of a decoded JSON value. -/
def pyTruthy : Json → Bool
  | Json.null => false
  | Json.bool b => b
  | Json.num lex => !(numIsZero lex)
  | Json.str s => !s.isEmpty
  | Json.arr l => !l.isEmpty
  | Json.obj f => !f.isEmpty

/-- Python `a or b` on values: `b` when `a` is falsy, else `a`. -/
def pyOr (a b : Json) : Json := if pyTruthy a then a else b

/-- Lookup in an object's field list (objects built by the parser have no
duplicate keys). -/
def lookupField : List (List Char × Json) → List Char → Option Json
  | [], _ => none
  | (k', v) :: rest, k => if k' = k then some v else lookupField rest k

/-- Python `d.get(k, default)`: `none` models the `AttributeError` raised when
the receiver is not a dict. -/
def pyGetD (j : Json) (k : List Char) (dflt : Json) : Option Json :=
  match j with
  | Json.obj f => some ((lookupField f k).getD dflt)
  | _ => none

/-- Python `d.get(k)` (default `None`). -/
def pyGet (j : Json) (k : List Char) : Option Json := pyGetD j k Json.null

/-- Python `d[k]` for a string key: `KeyError` (`none`) when missing,
`TypeError` (`none`) when the receiver is not a dict. -/
def pySubscript (j : Json) (k : List Char) : Option Json :=
  match j with
  | Json.obj f => lookupField f k
  | _ => none

/-- Python `x[0]`: first element of a list, first character of a string
(as a one-character string), error otherwise. -/
def pyIndex0 : Json → Option Json
  | Json.arr (x :: _) => some x
  | Json.str (c :: _) => some (Json.str [c])
  | _ => none

/-- Python dict key test `k in j` for a dict receiver.  Every value this is
applied to in the source comes out of the collector, which only produces
dicts (proved below), so the non-dict arm is unreachable there. -/
def pyHasKey (j : Json) (k : List Char) : Bool :=
  match j with
  | Json.obj f => (lookupField f k).isSome
  | _ => false

/-- Python `for x in j`: lists yield elements, strings yield one-character
strings, dicts yield their keys; `None`, booleans and numbers raise
(`none`). -/
def pyIter : Json → Option (List Json)
  | Json.arr l => some l
  | Json.str s => some (s.map (fun c => Json.str [c]))
  | Json.obj f => some (f.map (fun p => Json.str p.1))
  | _ => none

mutual

/-- Model of `json_contains_carrier_groups`: `True` iff the key
`"carrierGroups"` occurs at any depth (dicts: key test first, then the
values; lists: the elements). -/
def json_contains_carrier_groups : Json → Bool
  | Json.obj fs => fs.any (fun p => p.1 = "carrierGroups".data) || cgFields fs
  | Json.arr l => cgElems l
  | _ => false

/-- Deep search over an object's field values. -/
def cgFields : List (List Char × Json) → Bool
  | [] => false
  | (_, v) :: rest => json_contains_carrier_groups v || cgFields rest

/-- Deep search over an array's elements. -/
def cgElems : List Json → Bool
  | [] => false
  | x :: rest => json_contains_carrier_groups x || cgElems rest

end

example : json_contains_carrier_groups
    (Json.obj [(['a'], Json.arr [Json.obj [("carrierGroups".data, Json.null)]])]) = true := rfl

example : json_contains_carrier_groups (Json.obj [(['a'], Json.num ['1'])]) = false := rfl

/-- Python `", ".join`. -/
def joinComma : List (List Char) → List Char
  | [] => []
  | [l] => l
  | l :: ls => l ++ ',' :: ' ' :: joinComma ls

mutual

/-- Python `repr(v)` of a decoded value.  Number formatting keeps the source
lexeme: for the integer literals these logs carry this is exact; CPython's
float re-formatting (e.g. `1e2` printed as `100.0`) is floating-point
behaviour that no claim depends on.  String `repr` wraps in single quotes
without re-escaping, which is exact for quote-free content. -/
def pyRepr : Json → List Char
  | Json.null => "None".data
  | Json.bool true => "True".data
  | Json.bool false => "False".data
  | Json.num lex => lex
  | Json.str s => '\'' :: s ++ ['\'']
  | Json.arr l => '[' :: reprElems l ++ [']']
  | Json.obj f => '\x7b' :: reprFields f ++ ['\x7d']

/-- Comma-joined `repr`s of array elements. -/
def reprElems : List Json → List Char
  | [] => []
  | [x] => pyRepr x
  | x :: rest => pyRepr x ++ ',' :: ' ' :: reprElems rest

/-- Comma-joined `'key': repr(value)` renderings of dict items. -/
def reprFields : List (List Char × Json) → List Char
  | [] => []
  | [(k, v)] => '\'' :: k ++ '\'' :: ':' :: ' ' :: pyRepr v
  | (k, v) :: rest => '\'' :: k ++ '\'' :: ':' :: ' ' :: pyRepr v ++ ',' :: ' ' :: reprFields rest

end

/-- Python `str(v)` on a decoded value (equal to `repr` except on strings,
which print bare). -/
def pyStr : Json → List Char
  | Json.str s => s
  | j => pyRepr j

/-! ## Brace-balanced collector (`collect_json_from_line_list`) -/

/-- The forward scan for the first line whose `lstrip()` starts with `"{"`;
returns that stripped line and the lines after it. -/
def findBrace : List (List Char) → Option (List Char × List (List Char))
  | [] => none
  | l :: rest =>
    let stripped := l.dropWhile isPyWs
    if stripped.head? = some '{' then some (stripped, rest) else findBrace rest

/-- The accumulation loop of `collect_json_from_line_list`: append each line,
update the lexical brace balance and the `started` flag, and stop with the
newline-joined block the first time the balance is zero after a `{` has been
seen.  `none` when the input ends first. -/
def collectLoop : List (List Char) → Int → Bool → List (List Char) → Option (List Char)
  | [], _, _, _ => none
  | l :: rest, bal, started, acc =>
    let acc' := acc ++ [l]
    let bal' := bal + (l.count '{' : Int) - (l.count '}' : Int)
    let started' := started || l.contains '{'
    if started' && bal' == 0 then some (joinNL acc')
    else collectLoop rest bal' started' acc'

/-- The candidate block assembled by the collector, before sanitization:
scan from `start` for a line starting (after `lstrip`) with `{`, then run the
balance loop over the stripped first line followed by the raw lines after
it. -/
def collectBlock (lines : List (List Char)) (start : Nat) : Option (List Char) :=
  match findBrace (lines.drop start) with
  | none => none
  | some (first, rest) => collectLoop (first :: rest) 0 false []

/-- Model of `collect_json_from_line_list`: sanitize the assembled block and
decode it; a decode failure is reported (and swallowed) as `None`. -/
def collect_json_from_line_list (lines : List (List Char)) (start : Nat) : Option Json :=
  (collectBlock lines start).bind (fun block => jsonLoads (sanitize_json_block block))

example : collect_json_from_line_list
    ["noise".data, "  \x7b".data, "\"a\": [1,".data, "2]\x7d".data] 0 =
    some (Json.obj [(['a'], Json.arr [Json.num ['1'], Json.num ['2']])]) := rfl

/-! ## Marker locator and JSON extractor (`extract_json_after_marker`) -/

/-- Indices of the lines containing `marker` as a substring, in file order. -/
def markerIndices (lines : List (List Char)) (marker : List Char) : List Nat :=
  (lines.enum.filter (fun p => containsSub marker p.2)).map Prod.fst

/-- The collection step shared by every marker strategy: if the marker line
itself contains `{`, collect from that `{` onward (same line plus all
following lines), otherwise collect from the line after the marker. -/
def collectAfter (allLines : List (List Char)) (i : Nat) (line : List Char) :
    Option Json :=
  if line.contains '{' then
    collect_json_from_line_list
      ((line.drop (line.findIdx (fun c => c = '{'))) :: allLines.drop (i + 1)) 0
  else
    collect_json_from_line_list allLines (i + 1)

/-- The extraction attempt at one marker line. -/
def extractAt (lines : List (List Char)) (i : Nat) : Option Json :=
  collectAfter lines i (lines.getD i [])

/-- Walk the candidate marker indices in order, skipping failed collections
and payloads missing a required top-level key. -/
def tryIndices (lines : List (List Char)) (requireKeys : List (List Char)) :
    List Nat → Option Json
  | [] => none
  | i :: rest =>
    match extractAt lines i with
    | none => tryIndices lines requireKeys rest
    | some obj =>
      if requireKeys.all (fun k => pyHasKey obj k) then some obj
      else tryIndices lines requireKeys rest

/-- Model of `extract_json_after_marker`.  `first = true` iterates matches
earliest-first, `first = false` latest-first; in either order the first match
that collects successfully and has all required top-level keys wins. -/
def extract_json_after_marker (lines : List (List Char)) (marker : List Char)
    (requireKeys : List (List Char)) (first : Bool) : Option Json :=
  let idx := markerIndices lines marker
  tryIndices lines requireKeys (if first then idx else idx.reverse)

/-! ## Payload resolver (`parse_log_file`, request and response sides) -/

/-- Request tier 1: Shopify. -/
def reqTier1 (lines : List (List Char)) : Option Json :=
  extract_json_after_marker lines "Converted shopify request to".data
    ["cart".data, "destination".data] true

/-- Request tier 2: BigCommerce. -/
def reqTier2 (lines : List (List Char)) : Option Json :=
  extract_json_after_marker lines "Converted bigcommerce request to".data
    ["cart".data, "destination".data] true

/-- Request tier 3: Magento 2 GraphQL. -/
def reqTier3 (lines : List (List Char)) : Option Json :=
  extract_json_after_marker lines "REST Request after GraphQL Unmarshalling".data
    ["cart".data] true

/-- Request tier 4: Magento fallback. -/
def reqTier4 (lines : List (List Char)) : Option Json :=
  extract_json_after_marker lines "[REQUEST]:".data ["cart".data] true

/-- The scan loop of request tier 5 over enumerated lines. -/
def genericReqGo (allLines : List (List Char)) : List (Nat × List Char) → Option Json
  | [] => none
  | (i, line) :: rest =>
    if containsSub "Converted".data line && containsSub "request to".data line &&
        !containsSub "shopify".data (lowerStr line) &&
        !containsSub "bigcommerce".data (lowerStr line) then
      match collectAfter allLines i line with
      | some obj =>
        if pyTruthy obj && pyHasKey obj "cart".data && pyHasKey obj "destination".data then
          some obj
        else genericReqGo allLines rest
      | none => genericReqGo allLines rest
    else genericReqGo allLines rest

/-- Request tier 5: generic converted request. -/
def reqTier5 (lines : List (List Char)) : Option Json :=
  genericReqGo lines lines.enum

/-- The request tiers by priority number (1–5; anything else resolves
nothing). -/
def reqTierN (lines : List (List Char)) : Nat → Option Json
  | 1 => reqTier1 lines
  | 2 => reqTier2 lines
  | 3 => reqTier3 lines
  | 4 => reqTier4 lines
  | 5 => reqTier5 lines
  | _ => none

/-- Tiers 5 of the request chain, then exhaustion. -/
def resolveRequestFrom5 (lines : List (List Char)) : Option Json := reqTier5 lines

/-- Tiers 4–5 of the request chain. -/
def resolveRequestFrom4 (lines : List (List Char)) : Option Json :=
  match reqTier4 lines with
  | some j => some j
  | none => resolveRequestFrom5 lines

/-- Tiers 3–5 of the request chain. -/
def resolveRequestFrom3 (lines : List (List Char)) : Option Json :=
  match reqTier3 lines with
  | some j => some j
  | none => resolveRequestFrom4 lines

/-- Tiers 2–5 of the request chain. -/
def resolveRequestFrom2 (lines : List (List Char)) : Option Json :=
  match reqTier2 lines with
  | some j => some j
  | none => resolveRequestFrom3 lines

/-- The full request-side resolution: the `if request_json is None` ladder of
`parse_log_file`. -/
def resolveRequest (lines : List (List Char)) : Option Json :=
  match reqTier1 lines with
  | some j => some j
  | none => resolveRequestFrom2 lines

/-- The filter applied after response tiers 1–4: a truthy payload without a
deep `carrierGroups` key is reset to `None`.  (A falsy payload — the empty
dict — slips through untested.) -/
def cgFilter : Option Json → Option Json
  | none => none
  | some j =>
    if pyTruthy j && !json_contains_carrier_groups j then none else some j

/-- Response tier 1: Shopify adapted response, latest match. -/
def respTier1 (lines : List (List Char)) : Option Json :=
  cgFilter (extract_json_after_marker lines
    "Adapting the following rate response to shopify response".data [] false)

/-- Response tier 2: BigCommerce adapted response, latest match. -/
def respTier2 (lines : List (List Char)) : Option Json :=
  cgFilter (extract_json_after_marker lines
    "Adapting the following rate response to bigcommerce response".data [] false)

/-- Response tier 3: Magento 2 GraphQL response, earliest match. -/
def respTier3 (lines : List (List Char)) : Option Json :=
  cgFilter (extract_json_after_marker lines
    "REST Response before GraphQL Marshalling".data [] true)

/-- Response tier 4: Magento fallback, earliest match. -/
def respTier4 (lines : List (List Char)) : Option Json :=
  cgFilter (extract_json_after_marker lines "[RESPONSE]:".data [] true)

/-- The scan loop of response tier 5 over enumerated lines. -/
def genericRespGo (allLines : List (List Char)) : List (Nat × List Char) → Option Json
  | [] => none
  | (i, line) :: rest =>
    if containsSub "Adapting the following rate response to".data line then
      if containsSub "shopify response".data (lowerStr line) ||
          containsSub "bigcommerce response".data (lowerStr line) then
        genericRespGo allLines rest
      else
        match collectAfter allLines i line with
        | some obj =>
          if pyTruthy obj && json_contains_carrier_groups obj then some obj
          else genericRespGo allLines rest
        | none => genericRespGo allLines rest
    else genericRespGo allLines rest

/-- Response tier 5: generic adapted response. -/
def respTier5 (lines : List (List Char)) : Option Json :=
  genericRespGo lines lines.enum

/-- The response tiers by priority number. -/
def respTierN (lines : List (List Char)) : Nat → Option Json
  | 1 => respTier1 lines
  | 2 => respTier2 lines
  | 3 => respTier3 lines
  | 4 => respTier4 lines
  | 5 => respTier5 lines
  | _ => none

/-- Tier 5 of the response chain, then exhaustion. -/
def resolveResponseFrom5 (lines : List (List Char)) : Option Json := respTier5 lines

/-- Tiers 4–5 of the response chain. -/
def resolveResponseFrom4 (lines : List (List Char)) : Option Json :=
  match respTier4 lines with
  | some j => some j
  | none => resolveResponseFrom5 lines

/-- Tiers 3–5 of the response chain. -/
def resolveResponseFrom3 (lines : List (List Char)) : Option Json :=
  match respTier3 lines with
  | some j => some j
  | none => resolveResponseFrom4 lines

/-- Tiers 2–5 of the response chain. -/
def resolveResponseFrom2 (lines : List (List Char)) : Option Json :=
  match respTier2 lines with
  | some j => some j
  | none => resolveResponseFrom3 lines

/-- The full response-side resolution ladder of `parse_log_file`. -/
def resolveResponse (lines : List (List Char)) : Option Json :=
  match respTier1 lines with
  | some j => some j
  | none => resolveResponseFrom2 lines

/-- The error message raised when every request-side strategy fails. -/
def reqErrMsg : List Char := "Could not extract request JSON from this log.".data

/-- The error message raised when every response-side strategy fails. -/
def respErrMsg : List Char := "Could not extract response JSON from this log.".data

/-- The payload-resolution phase of `parse_log_file` on the split lines:
either both payloads, or the `ValueError` message it raises. -/
def resolvePayloads (lines : List (List Char)) : Except (List Char) (Json × Json) :=
  match resolveRequest lines with
  | none => Except.error reqErrMsg
  | some req =>
    match resolveResponse lines with
    | none => Except.error respErrMsg
    | some resp => Except.ok (req, resp)

/-! ## Field normalizer (`extract_fields`) -/

/-- One normalized cart line item. -/
structure CartItem where
  product : Json
  qty : Json
  weight : Json
  value : Json
  shipping_group : Json
  dim_group : Json
  dimensions : List Char

/-- One normalized carrier/method record. -/
structure MethodEntry where
  carrier : Json
  service_name : Json
  base : Json
  final : Json
  handling : Json
  negotiated : Json
  address_type : Json
  flat_rules : Json
  change_rules : Json
  packing : Json
  blocked_reasons : Json
  error_message : Json

/-- The canonical summary returned by `extract_fields`. -/
structure Summary where
  ship_from : Json
  ship_to : Json
  cart : List CartItem
  methods : List MethodEntry

/-- `d.get(k)` on a dict already matched to its field list. -/
def dGet (f : List (List Char × Json)) (k : List Char) : Json :=
  (lookupField f k).getD Json.null

/-- `d.get(k, dflt)` on a dict already matched to its field list. -/
def dGetD (f : List (List Char × Json)) (k : List Char) (dflt : Json) : Json :=
  (lookupField f k).getD dflt

/-- Python `v is None`. -/
def isNullJ : Json → Bool
  | Json.null => true
  | _ => false

/-- The mutable per-item state of the attribute scan in `extract_fields`. -/
structure AttrState where
  length : Json
  width : Json
  height : Json
  shipping_group : Json
  dim_group : Json

/-- The state before any attribute is seen: dimensions `None`, groups
`"N/A"`. -/
def initAttrState : AttrState :=
  ⟨Json.null, Json.null, Json.null, Json.str "N/A".data, Json.str "N/A".data⟩

/-- One iteration of the `for attr in item.get("attributes", [])` loop.
`none` models the exceptions the source lets escape to the enclosing
`try`: `attr.get` on a non-dict, `.lower()` on a truthy non-string name. -/
def attrStep (st : AttrState) (attr : Json) : Option AttrState :=
  match pyGet attr "name".data with
  | none => none
  | some nameRaw =>
    match pyOr nameRaw (Json.str []) with
    | Json.str s =>
      let name := lowerStr s
      let vals := match pyGet attr "values".data with
        | some v => v
        | none => Json.null
      let val0 := match pyGet attr "value".data with
        | some v => v
        | none => Json.null
      let val :=
        match vals with
        | Json.arr l =>
          if l.isEmpty then val0
          else
            let joined := joinComma ((l.filter (fun v => !isNullJ v)).map pyStr)
            if joined.isEmpty then val0 else Json.str joined
        | _ => val0
      if name = "shipperhq_shipping_group".data then
        some { st with shipping_group := pyOr val (Json.str "N/A".data) }
      else if name = "shipperhq_dim_group".data then
        some { st with dim_group := pyOr val (Json.str "N/A".data) }
      else if name = "ship_length".data ∨ name = "shipperhq_length".data ∨
          name = "length".data then
        some { st with length := val }
      else if name = "ship_width".data ∨ name = "shipperhq_width".data ∨
          name = "width".data then
        some { st with width := val }
      else if name = "ship_height".data ∨ name = "shipperhq_height".data ∨
          name = "height".data then
        some { st with height := val }
      else some st
    | _ => none

/-- The resolved length/width/height and group attributes of one cart item:
the attribute loop of `extract_fields` run to completion (`none` when it
raises). -/
def attrResolution (item : Json) : Option AttrState :=
  match pyGetD item "attributes".data (Json.arr []) with
  | none => none
  | some attrsJ =>
    match pyIter attrsJ with
    | none => none
    | some attrs => attrs.foldlM attrStep initAttrState

/-- The derived `dimensions` string: the exact f-string concatenation when
all three dimensions are truthy, the `"N/A"` sentinel otherwise. -/
def dimsOf (st : AttrState) : List Char :=
  if pyTruthy st.length && pyTruthy st.width && pyTruthy st.height then
    pyStr st.length ++ 'x' :: pyStr st.width ++ 'x' :: pyStr st.height
  else "N/A".data

/-- Normalization of one cart item (the body of the items loop). -/
def procItem (item : Json) : Option CartItem :=
  match attrResolution item with
  | none => none
  | some st =>
    match item with
    | Json.obj f =>
      some { product := dGet f "sku".data
             qty := dGet f "qty".data
             weight := dGet f "weight".data
             value := dGet f "rowTotal".data
             shipping_group := st.shipping_group
             dim_group := st.dim_group
             dimensions := dimsOf st }
    | _ => none

/-- The items loop: an exception stops the loop but the cart items appended
before it are kept (the enclosing `try` swallows the error). -/
def itemsLoop : List Json → List CartItem
  | [] => []
  | it :: rest =>
    match procItem it with
    | none => []
    | some ci => ci :: itemsLoop rest

/-- The `Cart` component of the summary. -/
def cartOf (req : Json) : List CartItem :=
  match pyGetD req "cart".data (Json.obj []) with
  | none => []
  | some cartJ =>
    match pyGetD cartJ "items".data (Json.arr []) with
    | none => []
    | some itemsJ =>
      match pyIter itemsJ with
      | none => []
      | some items => itemsLoop items

/-- Model of `pick_shipments`: the first source that is a dict carrying a
non-empty `shipments` list wins; otherwise the empty list. -/
def pick_shipments : List Json → Json
  | [] => Json.arr []
  | src :: rest =>
    match src with
    | Json.obj f =>
      match lookupField f "shipments".data with
      | some (Json.arr (x :: xs)) => Json.arr (x :: xs)
      | _ => pick_shipments rest
    | _ => pick_shipments rest

/-- The MethodEntry built for one rate of a carrier (`none` models the
exceptions from `.get` on a truthy non-dict `selectedOptions` or a non-dict
first option). -/
def rateEntry (carrierName c r : Json) : Option MethodEntry :=
  match r with
  | Json.obj rf =>
    let selo := pyOr (dGet rf "selectedOptions".data) (Json.obj [])
    match pyGet selo "options".data with
    | none => none
    | some optsRaw =>
      let options := pyOr optsRaw (Json.arr [])
      let addr? : Option Json :=
        match options with
        | Json.arr (o :: _) => pyGet o "value".data
        | _ => some Json.null
      match addr? with
      | none => none
      | some addr =>
        some { carrier := carrierName
               service_name := dGet rf "name".data
               base := dGetD rf "origShippingPrice".data (dGet rf "totalCharges".data)
               final := dGet rf "shippingPrice".data
               handling := dGet rf "handlingFee".data
               negotiated := dGetD rf "negotiatedRate".data (Json.bool false)
               address_type := addr
               flat_rules := dGetD rf "flatRulesApplied".data (Json.arr [])
               change_rules := dGetD rf "changeRulesApplied".data (Json.arr [])
               packing := pick_shipments [r, c]
               blocked_reasons := Json.arr []
               error_message := Json.str [] }
  | _ => none

/-- The internal-else-external error message drawn from a carrier's `error`
value (after the `or {}` default): `none` models the `.get` `AttributeError`
on a truthy non-dict value. -/
def errMsgOf : Json → Option Json
  | Json.obj ef =>
    some (pyOr (dGet ef "internalErrorMessage".data)
      (pyOr (dGet ef "externalErrorMessage".data) (Json.str [])))
  | _ => none

/-- The single blocking/error MethodEntry emitted for a carrier whose `rates`
came up empty, when it has prevent rules or an error message; `none` models
the exception from `.get` on a truthy non-dict `error` value. -/
def emptyRatesEntries (carrierName c : Json) : Option (List MethodEntry) :=
  match c with
  | Json.obj cf =>
    match errMsgOf (pyOr (dGet cf "error".data) (Json.obj [])) with
    | none => none
    | some errMsg =>
      if pyTruthy (pyOr (dGet cf "preventRulesApplied".data) (Json.arr [])) ||
          pyTruthy errMsg then
        some [{ carrier := carrierName
                service_name := pyOr (dGet cf "carrierTitle".data) carrierName
                base := Json.null
                final := Json.null
                handling := Json.null
                negotiated := dGetD cf "negotiatedRate".data (Json.bool false)
                address_type := Json.null
                flat_rules := Json.arr []
                change_rules := Json.arr []
                packing := pick_shipments [c]
                blocked_reasons := pyOr (dGet cf "preventRulesApplied".data) (Json.arr [])
                error_message := errMsg }]
      else some []
  | _ => none

/-- The rates loop for one carrier: emitted entries plus a flag recording
whether an exception escaped (entries emitted before it are kept). -/
def ratesLoop (carrierName c : Json) : List Json → List MethodEntry × Bool
  | [] => ([], false)
  | r :: rest =>
    match r with
    | Json.obj _ =>
      match rateEntry carrierName c r with
      | none => ([], true)
      | some e =>
        let p := ratesLoop carrierName c rest
        (e :: p.1, p.2)
    | _ => ratesLoop carrierName c rest

/-- All MethodEntry records of one carrier dict: its rates, then (when the
`rates` value was falsy) the optional blocking/error entry. -/
def carrierMethods (c : Json) : List MethodEntry × Bool :=
  match c with
  | Json.obj cf =>
    let carrierName :=
      pyOr (dGet cf "carrierName".data)
        (pyOr (dGet cf "carrierTitle".data) (Json.str "Unknown Carrier".data))
    let rates := pyOr (dGet cf "rates".data) (Json.arr [])
    match pyIter rates with
    | none => ([], true)
    | some rs =>
      let p := ratesLoop carrierName c rs
      if p.2 then p
      else if !pyTruthy rates then
        match emptyRatesEntries carrierName c with
        | none => (p.1, true)
        | some extra => (p.1 ++ extra, false)
      else p
  | _ => ([], false)

/-- The carriers loop within one group (non-dict entries are skipped). -/
def runCarriers : List Json → List MethodEntry × Bool
  | [] => ([], false)
  | c :: rest =>
    match c with
    | Json.obj _ =>
      let p := carrierMethods c
      if p.2 then p
      else
        let q := runCarriers rest
        (p.1 ++ q.1, q.2)
    | _ => runCarriers rest

/-- The groups loop over `carrierGroups` (non-dict groups are skipped). -/
def runGroups : List Json → List MethodEntry × Bool
  | [] => ([], false)
  | g :: rest =>
    match g with
    | Json.obj gf =>
      match pyIter (dGetD gf "carrierRates".data (Json.arr [])) with
      | none => ([], true)
      | some cs =>
        let p := runCarriers cs
        if p.2 then p
        else
          let q := runGroups rest
          (p.1 ++ q.1, q.2)
    | _ => runGroups rest

/-- The `Methods` component: the whole carrier walk sits in a `try` whose
`except` keeps whatever was appended before an error. -/
def methodsOf (resp : Json) : List MethodEntry :=
  match pyGetD resp "carrierGroups".data (Json.arr []) with
  | none => []
  | some cgs =>
    match pyIter cgs with
    | none => []
    | some gs => (runGroups gs).1

/-- Model of `extract_fields`: every lookup fails soft to its sentinel. -/
def extract_fields (req resp : Json) : Summary :=
  { ship_from :=
      (((pySubscript resp "carrierGroups".data).bind pyIndex0).bind
        (fun x => (pySubscript x "carrierGroupDetail".data).bind
          (fun y => pySubscript y "originAddress".data))).getD (Json.obj [])
    ship_to := (pySubscript req "destination".data).getD (Json.obj [])
    cart := cartOf req
    methods := methodsOf resp }

/-- Model of `parse_log_file` from the split lines onward: resolve both
payloads, then normalize. -/
def parse_log_file (lines : List (List Char)) : Except (List Char) Summary :=
  match resolvePayloads lines with
  | Except.error m => Except.error m
  | Except.ok p => Except.ok (extract_fields p.1 p.2)

/-- The processing attempt of `__main__`: on success the report derived from
the summary is written and the process ends with code 0; on an exception the
handler prints the error, writes nothing, and exits with code 1.  The pair
is (written output, exit code). -/
def mainProcess (lines : List (List Char)) : Option Summary × Nat :=
  match parse_log_file lines with
  | Except.ok s => (some s, 0)
  | Except.error _ => (none, 1)

example : sanitize_json_block "\x7b\"a\": \"line1\nline2\"\x7d".data =
    "\x7b\"a\": \"line1\\nline2\"\x7d".data := rfl

example : sanitize_json_block "pre \x1b[31mred\x1b[0m post".data =
    "pre red post".data := rfl

example : sanitize_json_block "\x7b\"a\\\\\": \"\x0d\n\x01\"\x7d\x0d\x02".data =
    "\x7b\"a\\\\\": \"\\r\\n \"\x7d".data := rfl

example : sanitize_json_block "\\\x1b\x0d[m".data = "\\\x1b[m".data := rfl

example : sanitize_json_block "\x7b\"a\": \"\\\n\"\x7d".data =
    "\x7b\"a\": \"\\\n\"\x7d".data := rfl

/-! ### Mirror tests against the reference implementation

The spec's worked example (§8) and an empty-rates carrier, checked
end-to-end against the observed behaviour of the Python source. -/

set_option maxRecDepth 10000

def exLogA : List (List Char) :=
  ["junk line".data,
  "2024-01-01 Converted shopify request to".data,
  "\x7b\"cart\":\x7b\"items\":[\x7b\"sku\":\"A1\",\"qty\":2,\"attributes\":[\x7b\"name\":\"ship_length\",\"value\":\"10\"\x7d,\x7b\"name\":\"ship_width\",\"value\":\"5\"\x7d,\x7b\"name\":\"ship_height\",\"value\":\"3\"\x7d]\x7d]\x7d,\"destination\":\x7b\"city\":\"Reno\"\x7d\x7d".data,
  "noise".data,
  "Adapting the following rate response to shopify response: \x7b\"carrierGroups\":[\x7b\"carrierGroupDetail\":\x7b\"originAddress\":\x7b\"city\":\"Boise\"\x7d\x7d,\"carrierRates\":[\x7b\"carrierName\":\"UPS\",\"rates\":[\x7b\"name\":\"Ground\",\"shippingPrice\":12.5\x7d]\x7d]\x7d]\x7d".data]

example : parse_log_file exLogA = Except.ok
    { ship_from := Json.obj [("city".data, Json.str "Boise".data)]
      ship_to := Json.obj [("city".data, Json.str "Reno".data)]
      cart := [{ product := Json.str "A1".data
                 qty := Json.num ['2']
                 weight := Json.null
                 value := Json.null
                 shipping_group := Json.str "N/A".data
                 dim_group := Json.str "N/A".data
                 dimensions := "10x5x3".data }]
      methods := [{ carrier := Json.str "UPS".data
                    service_name := Json.str "Ground".data
                    base := Json.null
                    final := Json.num "12.5".data
                    handling := Json.null
                    negotiated := Json.bool false
                    address_type := Json.null
                    flat_rules := Json.arr []
                    change_rules := Json.arr []
                    packing := Json.arr []
                    blocked_reasons := Json.arr []
                    error_message := Json.str [] }] } := rfl

def exLogB : List (List Char) :=
  ["Converted shopify request to".data,
  "\x7b\"cart\": \x7b\x7d, \"destination\": \x7b\x7d\x7d".data,
  "[RESPONSE]:".data,
  "\x7b\"carrierGroups\":[\x7b\"carrierRates\":[\x7b\"carrierTitle\":\"FedEx\",\"rates\":[],\"preventRulesApplied\":[\"rule1\",\"rule2\"]\x7d,\x7b\"carrierName\":\"Empty\",\"rates\":[]\x7d]\x7d]\x7d".data]

example : (parse_log_file exLogB).map Summary.methods = Except.ok
    [{ carrier := Json.str "FedEx".data
       service_name := Json.str "FedEx".data
       base := Json.null
       final := Json.null
       handling := Json.null
       negotiated := Json.bool false
       address_type := Json.null
       flat_rules := Json.arr []
       change_rules := Json.arr []
       packing := Json.arr []
       blocked_reasons := Json.arr [Json.str "rule1".data, Json.str "rule2".data]
       error_message := Json.str [] }] := rfl

/-! ## Theorems

Helper lemmas first, then one theorem per claim (with a witness or a
counterexample where the statement shape requires one). -/

/-- The lexical brace balance of one line. -/
def lineBal (l : List Char) : Int :=
  (l.count '{' : Int) - (l.count '}' : Int)

lemma joinNL_count_brace (c : Char) (hc : c ≠ '\n') :
    ∀ ls : List (List Char), (joinNL ls).count c = (ls.map (fun l => l.count c)).sum
  | [] => rfl
  | [l] => by simp [joinNL]
  | l :: l2 :: ls => by
    have ih := joinNL_count_brace c hc (l2 :: ls)
    simp only [joinNL, List.count_append, List.count_cons_of_ne hc, List.map,
      List.sum_cons] at *
    omega

lemma sum_lineBal : ∀ ls : List (List Char),
    (ls.map lineBal).sum =
      ((ls.map (fun l => l.count '{')).sum : Int) - ((ls.map (fun l => l.count '}')).sum : Int)
  | [] => rfl
  | l :: ls => by
    simp only [List.map, List.sum_cons, sum_lineBal ls, lineBal]
    ring

lemma joinNL_bal (ls : List (List Char)) :
    ((joinNL ls).count '{' : Int) - ((joinNL ls).count '}' : Int) = (ls.map lineBal).sum := by
  rw [joinNL_count_brace '{' (by decide) ls, joinNL_count_brace '}' (by decide) ls,
    sum_lineBal ls, Nat.cast_list_sum, Nat.cast_list_sum, List.map_map, List.map_map]
  rfl

lemma collectLoop_some : ∀ (ls : List (List Char)) (bal : Int) (started : Bool)
    (acc : List (List Char)) (b : List Char),
    collectLoop ls bal started acc = some b →
    ∃ pre rest, ls = pre ++ rest ∧ pre ≠ [] ∧ b = joinNL (acc ++ pre) ∧
      bal + (pre.map lineBal).sum = 0 ∧
      (started || pre.any (fun l => l.contains '{')) = true
  | [], _, _, _, _ => by intro h; exact absurd h (by simp [collectLoop])
  | l :: rest, bal, started, acc, b => by
    intro h
    rw [collectLoop] at h
    by_cases hc : ((started || l.contains '{') && (bal + (l.count '{' : Int) - (l.count '}' : Int)) == 0) = true
    · rw [if_pos hc] at h
      refine ⟨[l], rest, rfl, by simp, (Option.some_inj.mp h).symm, ?_, ?_⟩
      · have h3 : bal + (l.count '{' : Int) - (l.count '}' : Int) = 0 :=
          eq_of_beq ((Bool.and_eq_true _ _).mp hc).2
        simp only [List.map, List.sum_cons, List.sum_nil, lineBal]
        omega
      · have h1 := ((Bool.and_eq_true _ _).mp hc).1
        simpa [List.any_cons] using h1
    · rw [if_neg hc] at h
      obtain ⟨pre, rest', heq, hne, hb, hbal, hst⟩ :=
        collectLoop_some rest (bal + (l.count '{' : Int) - (l.count '}' : Int))
          (started || l.contains '{') (acc ++ [l]) b h
      refine ⟨l :: pre, rest', by simp [heq], by simp, ?_, ?_, ?_⟩
      · rw [hb]; congr 1; simp
      · simp only [List.map, List.sum_cons, lineBal] at *
        omega
      · simpa [List.any_cons, Bool.or_assoc] using hst

lemma findBrace_head : ∀ (ls : List (List Char)) (first : List Char)
    (rest : List (List Char)), findBrace ls = some (first, rest) →
    ∃ t, first = '{' :: t
  | [], _, _ => by intro h; exact absurd h (by simp [findBrace])
  | l :: ls, first, rest => by
    intro h
    rw [findBrace] at h
    by_cases hc : (l.dropWhile isPyWs).head? = some '{'
    · rw [if_pos hc] at h
      obtain ⟨h1, _⟩ := Prod.mk.injEq .. ▸ Option.some_inj.mp h
      cases hl : l.dropWhile isPyWs with
      | nil => rw [hl] at hc; exact absurd hc (by simp)
      | cons c t =>
        rw [hl] at hc
        simp only [List.head?] at hc
        exact ⟨t, by rw [← h1, hl, Option.some_inj.mp hc]⟩
    · rw [if_neg hc] at h
      exact findBrace_head ls first rest h

lemma joinNL_cons_head (c : Char) (t : List Char) :
    ∀ ls, ∃ w, joinNL ((c :: t) :: ls) = c :: w
  | [] => ⟨t, rfl⟩
  | l :: ls => ⟨t ++ '\n' :: joinNL (l :: ls), rfl⟩

/-- A block assembled by the collector starts with the literal `{` of its
stripped first line. -/
lemma collectBlock_head (lines : List (List Char)) (start : Nat) (b : List Char)
    (h : collectBlock lines start = some b) : ∃ w, b = '{' :: w := by
  rw [collectBlock] at h
  cases hf : findBrace (lines.drop start) with
  | none => rw [hf] at h; exact absurd h (by simp)
  | some p =>
    rw [hf] at h
    obtain ⟨t, ht⟩ := findBrace_head _ p.1 p.2 (by rw [hf])
    obtain ⟨pre, rest, heq, hne, hb, _, _⟩ := collectLoop_some (p.1 :: p.2) 0 false [] b h
    cases pre with
    | nil => exact absurd rfl hne
    | cons q pre' =>
      have hq : q = p.1 := by
        have := congrArg (fun l => l.head?) heq
        simpa using this.symm
      obtain ⟨w, hw⟩ := joinNL_cons_head '{' t pre'
      exact ⟨w, by rw [hb, hq, ht]; simpa using hw⟩

/-- C7: for every line list and start index on which the Collector
(`collect_json_from_line_list`) assembles a candidate block, the assembled
block's lexical brace balance (count of `{` minus count of `}`) is exactly
zero, its first non-whitespace character is `{`, and the block contains at
least one `{`. -/
theorem collector_block_invariants (lines : List (List Char)) (start : Nat)
    (b : List Char) (h : collectBlock lines start = some b) :
    b.count '{' = b.count '}' ∧ (b.dropWhile isPyWs).head? = some '{' ∧
      b.contains '{' = true := by
  obtain ⟨w, hw⟩ := collectBlock_head lines start b h
  rw [collectBlock] at h
  cases hf : findBrace (lines.drop start) with
  | none => rw [hf] at h; exact absurd h (by simp)
  | some p =>
    rw [hf] at h
    obtain ⟨pre, rest, heq, hne, hb, hbal, hst⟩ :=
      collectLoop_some (p.1 :: p.2) 0 false [] b h
    have hb2 : b = joinNL pre := by simpa using hb
    have hsum : (pre.map lineBal).sum = 0 := by omega
    have hcount := joinNL_bal pre
    rw [hsum] at hcount
    refine ⟨?_, ?_, ?_⟩
    · rw [hb2]; omega
    · rw [hw]
      rw [List.dropWhile_cons, if_neg (by decide : ¬ isPyWs '{' = true)]
      rfl
    · rw [hw]
      simp [List.contains_cons]

def c7Lines : List (List Char) :=
  ["log: start".data, "  \x7b\"a\": [1,".data, "2]\x7d trailing".data]

/-- Witness for C7 at a concrete log fragment: the assembled block is
brace-balanced, `{`-headed and `{`-containing. -/
theorem collector_block_invariants_witness :
    collectBlock c7Lines 0 = some "\x7b\"a\": [1,\n2]\x7d trailing".data ∧
      ("\x7b\"a\": [1,\n2]\x7d trailing".data.count '{' =
        "\x7b\"a\": [1,\n2]\x7d trailing".data.count '}' ∧
      ("\x7b\"a\": [1,\n2]\x7d trailing".data.dropWhile isPyWs).head? = some '{' ∧
      "\x7b\"a\": [1,\n2]\x7d trailing".data.contains '{' = true) :=
  ⟨rfl, collector_block_invariants c7Lines 0 _ rfl⟩

/-- Sanitization leaves a leading `{` in place (it is not an ANSI escape, a
backslash, a quote or a control character). -/
lemma sanitize_head_brace (r : List Char) :
    sanitize_json_block ('{' :: r) = '{' :: sanLoop false false (stripAnsiF r.length r) :=
  rfl

/-- A successful `json.loads` of text whose first character is `{` yields a
dict. -/
lemma jsonLoads_head_obj (t : List Char) (v : Json)
    (h : jsonLoads ('{' :: t) = some v) : ∃ f, v = Json.obj f := by
  rw [jsonLoads] at h
  obtain ⟨p, hp, hfin⟩ := Option.bind_eq_some.mp h
  have hv : v = p.1 := by
    by_cases he : (skipWs p.2).isEmpty = true
    · rw [if_pos he] at hfin; exact (Option.some_inj.mp hfin).symm
    · rw [if_neg he] at hfin; exact absurd hfin (by simp)
  have hp2 : (match skipWs t with
      | '}' :: r => some (Json.obj [], r)
      | _ => Option.map (fun p => (Json.obj p.1, p.2))
          (parseObjRestF ('{' :: t).length t [])) = some p := hp
  split at hp2
  · exact ⟨[], by rw [hv, ← (Option.some_inj.mp hp2)]⟩
  · obtain ⟨q, _, hq⟩ := Option.map_eq_some'.mp hp2
    exact ⟨q.1, by rw [hv, ← hq]⟩

/-- Everything the Collector returns is a dict: collection only ever starts
at a line whose stripped content begins with `{`. -/
lemma collect_obj (lines : List (List Char)) (start : Nat) (j : Json)
    (h : collect_json_from_line_list lines start = some j) : ∃ f, j = Json.obj f := by
  rw [collect_json_from_line_list] at h
  obtain ⟨b, hb, hl⟩ := Option.bind_eq_some.mp h
  obtain ⟨w, hw⟩ := collectBlock_head lines start b hb
  subst hw
  rw [sanitize_head_brace] at hl
  exact jsonLoads_head_obj _ j hl

/-- Every payload the shared collection step yields is a dict. -/
lemma collectAfter_obj (allLines : List (List Char)) (i : Nat) (line : List Char)
    (j : Json) (h : collectAfter allLines i line = some j) : ∃ f, j = Json.obj f := by
  rw [collectAfter] at h
  by_cases hbr : line.contains '{' = true
  · rw [if_pos hbr] at h; exact collect_obj _ _ _ h
  · rw [if_neg hbr] at h; exact collect_obj _ _ _ h

/-- Every payload accepted by the marker walk is a dict and has all required
top-level keys. -/
lemma tryIndices_obj_keys (lines : List (List Char)) (ks : List (List Char)) :
    ∀ (idx : List Nat) (j : Json), tryIndices lines ks idx = some j →
      (∃ f, j = Json.obj f) ∧ ks.all (fun k => pyHasKey j k) = true
  | [], _ => by intro h; exact absurd h (by simp [tryIndices])
  | i :: rest, j => by
    intro h
    rw [tryIndices] at h
    cases he : extractAt lines i with
    | none =>
      rw [he] at h
      exact tryIndices_obj_keys lines ks rest j h
    | some obj =>
      rw [he] at h
      have h2 : (if (ks.all fun k => pyHasKey obj k) = true then some obj
          else tryIndices lines ks rest) = some j := h
      by_cases hk : ks.all (fun k => pyHasKey obj k) = true
      · rw [if_pos hk] at h2
        obtain rfl := Option.some_inj.mp h2
        refine ⟨?_, hk⟩
        rw [extractAt] at he
        exact collectAfter_obj _ _ _ _ he
      · rw [if_neg hk] at h2
        exact tryIndices_obj_keys lines ks rest j h2

/-- Every payload returned by `extract_json_after_marker` is a dict with all
required top-level keys. -/
lemma extract_obj_keys (lines : List (List Char)) (marker : List Char)
    (ks : List (List Char)) (first : Bool) (j : Json)
    (h : extract_json_after_marker lines marker ks first = some j) :
    (∃ f, j = Json.obj f) ∧ ks.all (fun k => pyHasKey j k) = true := by
  rw [extract_json_after_marker] at h
  exact tryIndices_obj_keys lines ks _ j h

/-- C10: any non-null value returned by the Collector
(`collect_json_from_line_list`), and hence by the JSON Extractor
(`extract_json_after_marker`), is a JSON object (a mapping), never a
sequence or scalar, because collection only ever begins at a line whose
stripped content starts with `{`; the required-top-level-keys filter is
therefore always a key lookup on a mapping. -/
theorem collector_extractor_only_objects :
    (∀ (lines : List (List Char)) (start : Nat) (j : Json),
      collect_json_from_line_list lines start = some j → ∃ f, j = Json.obj f) ∧
    (∀ (lines : List (List Char)) (marker : List Char) (ks : List (List Char))
      (first : Bool) (j : Json),
      extract_json_after_marker lines marker ks first = some j →
        ∃ f, j = Json.obj f) :=
  ⟨collect_obj, fun lines marker ks first j h => (extract_obj_keys lines marker ks first j h).1⟩

/-- Witness for C10 at a concrete input: the collected payload is the
expected mapping. -/
theorem collector_extractor_only_objects_witness :
    collect_json_from_line_list ["\x7b\"a\": 1\x7d".data] 0 =
        some (Json.obj [(['a'], Json.num ['1'])]) ∧
      (∃ f, (Json.obj [(['a'], Json.num ['1'])] : Json) = Json.obj f) :=
  ⟨rfl, collector_extractor_only_objects.1 ["\x7b\"a\": 1\x7d".data] 0 _ rfl⟩

/-- C1: the request Payload Resolver evaluates its strategy tiers strictly in
priority order: whenever tier `k` yields a payload and every higher-priority
tier yields none, the resolver returns exactly tier `k`'s payload — line
positions in the file (and hence earlier lower-priority markers) play no
role in the tier order. -/
theorem request_priority (lines : List (List Char)) (k : Nat) (p : Json)
    (hk : reqTierN lines k = some p) (hlow : ∀ j, j < k → reqTierN lines j = none) :
    resolveRequest lines = some p := by
  match k with
  | 0 => exact absurd hk (by simp [reqTierN])
  | 1 => rw [resolveRequest, show reqTier1 lines = some p from hk]
  | 2 =>
    rw [resolveRequest, show reqTier1 lines = none from hlow 1 (by omega),
      resolveRequestFrom2, show reqTier2 lines = some p from hk]
  | 3 =>
    rw [resolveRequest, show reqTier1 lines = none from hlow 1 (by omega),
      resolveRequestFrom2, show reqTier2 lines = none from hlow 2 (by omega),
      resolveRequestFrom3, show reqTier3 lines = some p from hk]
  | 4 =>
    rw [resolveRequest, show reqTier1 lines = none from hlow 1 (by omega),
      resolveRequestFrom2, show reqTier2 lines = none from hlow 2 (by omega),
      resolveRequestFrom3, show reqTier3 lines = none from hlow 3 (by omega),
      resolveRequestFrom4, show reqTier4 lines = some p from hk]
  | 5 =>
    rw [resolveRequest, show reqTier1 lines = none from hlow 1 (by omega),
      resolveRequestFrom2, show reqTier2 lines = none from hlow 2 (by omega),
      resolveRequestFrom3, show reqTier3 lines = none from hlow 3 (by omega),
      resolveRequestFrom4, show reqTier4 lines = none from hlow 4 (by omega),
      resolveRequestFrom5]
    exact hk
  | n + 6 => exact absurd hk (by simp [reqTierN])

def c1Lines : List (List Char) :=
  ["Converted bigcommerce request to".data,
  "\x7b\"cart\": 1, \"destination\": 2\x7d".data,
  "Converted shopify request to".data,
  "\x7b\"cart\": 3, \"destination\": 4\x7d".data]

def c1Payload : Json :=
  Json.obj [("cart".data, Json.num ['3']), ("destination".data, Json.num ['4'])]

/-- Witness for C1: the tier-2 (BigCommerce) pair sits earlier in the file
than the tier-1 (Shopify) pair, yet the resolver picks the Shopify
payload. -/
theorem request_priority_witness :
    reqTierN c1Lines 1 = some c1Payload ∧
      reqTier2 c1Lines = some (Json.obj [("cart".data, Json.num ['1']),
        ("destination".data, Json.num ['2'])]) ∧
      resolveRequest c1Lines = some c1Payload :=
  ⟨rfl, rfl, request_priority c1Lines 1 c1Payload rfl
    (fun j hj => by
      have hj0 : j = 0 := by omega
      subst hj0
      rfl)⟩

/-- The request chain fails when all five tiers fail. -/
lemma resolveRequest_none (lines : List (List Char))
    (h : ∀ k, reqTierN lines k = none) : resolveRequest lines = none := by
  rw [resolveRequest, show reqTier1 lines = none from h 1,
    resolveRequestFrom2, show reqTier2 lines = none from h 2,
    resolveRequestFrom3, show reqTier3 lines = none from h 3,
    resolveRequestFrom4, show reqTier4 lines = none from h 4,
    resolveRequestFrom5]
  exact h 5

/-- The response chain fails when all five tiers fail. -/
lemma resolveResponse_none (lines : List (List Char))
    (h : ∀ k, respTierN lines k = none) : resolveResponse lines = none := by
  rw [resolveResponse, show respTier1 lines = none from h 1,
    resolveResponseFrom2, show respTier2 lines = none from h 2,
    resolveResponseFrom3, show respTier3 lines = none from h 3,
    resolveResponseFrom4, show respTier4 lines = none from h 4,
    resolveResponseFrom5]
  exact h 5

/-- C4: if every request-side extraction strategy fails, or every
response-side extraction strategy fails, processing raises the explicit
extraction `ValueError` with its descriptive message, no output report is
written, and the process exits with code 1. -/
theorem exhausted_strategies_raise (lines : List (List Char))
    (h : (∀ k, reqTierN lines k = none) ∨ (∀ k, respTierN lines k = none)) :
    (parse_log_file lines = Except.error reqErrMsg ∨
      parse_log_file lines = Except.error respErrMsg) ∧
      mainProcess lines = (none, 1) := by
  have herr : parse_log_file lines = Except.error reqErrMsg ∨
      parse_log_file lines = Except.error respErrMsg := by
    rcases h with hreq | hresp
    · left
      rw [parse_log_file, resolvePayloads, resolveRequest_none lines hreq]
    · cases hr : resolveRequest lines with
      | none =>
        left
        rw [parse_log_file, resolvePayloads, hr]
      | some req =>
        right
        rw [parse_log_file, resolvePayloads, hr, resolveResponse_none lines hresp]
  refine ⟨herr, ?_⟩
  rcases herr with he | he <;> rw [mainProcess, he]

/-- Witness for C4: on an empty log every tier fails, the request-side error
is raised, nothing is written and the exit code is 1. -/
theorem exhausted_strategies_raise_witness :
    (∀ k, reqTierN ([] : List (List Char)) k = none) ∧
      (parse_log_file ([] : List (List Char)) = Except.error reqErrMsg ∨
        parse_log_file ([] : List (List Char)) = Except.error respErrMsg) ∧
      mainProcess ([] : List (List Char)) = (none, 1) := by
  have hall : ∀ k, reqTierN ([] : List (List Char)) k = none := by
    intro k
    match k with
    | 0 => rfl
    | 1 => rfl
    | 2 => rfl
    | 3 => rfl
    | 4 => rfl
    | 5 => rfl
    | n + 6 => rfl
  have := exhausted_strategies_raise [] (Or.inl hall)
  exact ⟨hall, this.1, this.2⟩

def c2Lines : List (List Char) :=
  ["Adapting the following rate response to shopify response".data,
  "\x7b\"carrierGroups\": []\x7d".data,
  "Adapting the following rate response to shopify response".data,
  "\x7b\"other\": 1\x7d".data]

/-- Counterexample to C2 as stated: the log has two matches of the response
tier-1 marker; the earlier one's payload contains `carrierGroups`, the later
(latest-first-first) one's payload does not.  The claim says the tier should
continue to the earlier match and select the `carrierGroups` payload; in
fact the tier — and the whole response resolution — yields nothing. -/
theorem response_tier1_counterexample :
    collect_json_from_line_list c2Lines 1 =
        some (Json.obj [("carrierGroups".data, Json.arr [])]) ∧
      json_contains_carrier_groups (Json.obj [("carrierGroups".data, Json.arr [])]) = true ∧
      respTier1 c2Lines = none ∧
      resolveResponse c2Lines = none :=
  ⟨rfl, rfl, rfl, rfl⟩

/-- C2 (amended): within response tier 1, matches of the Shopify response
marker are iterated latest-first and the extractor returns the latest match
that parses; if that payload is truthy and lacks `carrierGroups` at every
depth, the entire tier yields no match — the search does NOT continue with
earlier matches of the same marker — and resolution falls through to the
next tier. -/
theorem response_tier1_no_continuation (lines : List (List Char)) (j : Json)
    (he : extract_json_after_marker lines
      "Adapting the following rate response to shopify response".data [] false = some j)
    (ht : pyTruthy j = true) (hcg : json_contains_carrier_groups j = false) :
    respTier1 lines = none ∧ resolveResponse lines = resolveResponseFrom2 lines := by
  have h1 : respTier1 lines = none := by
    rw [respTier1, he]
    simp [cgFilter, ht, hcg]
  exact ⟨h1, by rw [resolveResponse, h1]⟩

def c2bLines : List (List Char) :=
  ["Adapting the following rate response to shopify response".data,
  "\x7b\"x\": 1\x7d".data]

/-- Witness for the amended C2 at a concrete log: the latest (only) match
parses but lacks `carrierGroups`, so tier 1 fails and resolution falls
through. -/
theorem response_tier1_no_continuation_witness :
    respTier1 c2bLines = none ∧
      resolveResponse c2bLines = resolveResponseFrom2 c2bLines :=
  response_tier1_no_continuation c2bLines (Json.obj [(['x'], Json.num ['1'])]) rfl rfl rfl

def c3Lines : List (List Char) :=
  ["Converted shopify request to".data,
  "\x7b\"cart\": \x7b\x7d, \"destination\": \x7b\x7d\x7d".data,
  "Adapting the following rate response to shopify response".data,
  "\x7b\x7d".data]

/-- Counterexample to C3 as stated: `parse_log_file` succeeds on this log,
but the resolved response payload is the empty dict, which contains
`carrierGroups` at no depth — the falsy empty dict slips past the
`if response_json and not json_contains_carrier_groups(...)` test. -/
theorem resolved_payload_counterexample :
    resolvePayloads c3Lines = Except.ok
      (Json.obj [("cart".data, Json.obj []), ("destination".data, Json.obj [])],
        Json.obj []) ∧
      json_contains_carrier_groups (Json.obj []) = false ∧
      (parse_log_file c3Lines).isOk = true :=
  ⟨rfl, rfl, rfl⟩

/-- A payload surviving `cgFilter` is the very payload that went in. -/
lemma cgFilter_eq (o : Option Json) (j : Json) (h : cgFilter o = some j) :
    o = some j := by
  cases o with
  | none => exact absurd h (by simp [cgFilter])
  | some j0 =>
    have h2 : (if pyTruthy j0 && !json_contains_carrier_groups j0 then none
        else some j0) = some j := h
    by_cases hc : (pyTruthy j0 && !json_contains_carrier_groups j0) = true
    · rw [if_pos hc] at h2; exact absurd h2 (by simp)
    · rw [if_neg hc] at h2; exact h2

/-- A payload surviving `cgFilter` is falsy or deeply contains
`carrierGroups`. -/
lemma cgFilter_spec (o : Option Json) (j : Json) (h : cgFilter o = some j) :
    pyTruthy j = false ∨ json_contains_carrier_groups j = true := by
  cases o with
  | none => exact absurd h (by simp [cgFilter])
  | some j0 =>
    have h2 : (if pyTruthy j0 && !json_contains_carrier_groups j0 then none
        else some j0) = some j := h
    by_cases hc : (pyTruthy j0 && !json_contains_carrier_groups j0) = true
    · rw [if_pos hc] at h2; exact absurd h2 (by simp)
    · rw [if_neg hc] at h2
      obtain rfl := Option.some_inj.mp h2
      by_cases ht : pyTruthy j0 = true
      · right
        cases hcg : json_contains_carrier_groups j0 with
        | true => rfl
        | false => exact absurd (by rw [ht, hcg]; rfl) hc
      · exact Or.inl (Bool.not_eq_true _ ▸ ht)

/-- A response tier of the `cgFilter (extract …)` shape yields only the
empty dict or a payload deeply containing `carrierGroups`. -/
lemma cgFilter_extract_inv (lines : List (List Char)) (marker : List Char)
    (first : Bool) (j : Json)
    (h : cgFilter (extract_json_after_marker lines marker [] first) = some j) :
    j = Json.obj [] ∨ json_contains_carrier_groups j = true := by
  obtain ⟨f, rfl⟩ :=
    (extract_obj_keys lines marker [] first j (cgFilter_eq _ _ h)).1
  rcases cgFilter_spec _ _ h with hf | hcg
  · left
    have hfe : f.isEmpty = true := by simpa [pyTruthy] using hf
    rw [List.isEmpty_iff.mp hfe]
  · right; exact hcg

/-- A payload found by the generic response scan is truthy and deeply
contains `carrierGroups`. -/
lemma genericRespGo_cg (allLines : List (List Char)) :
    ∀ (l : List (Nat × List Char)) (j : Json), genericRespGo allLines l = some j →
      pyTruthy j = true ∧ json_contains_carrier_groups j = true
  | [], _ => by intro h; exact absurd h (by simp [genericRespGo])
  | (i, line) :: rest, j => by
    intro h
    rw [genericRespGo] at h
    split at h
    · split at h
      · exact genericRespGo_cg allLines rest j h
      · split at h
        · rename_i obj heq
          by_cases hc : (pyTruthy obj && json_contains_carrier_groups obj) = true
          · rw [if_pos hc] at h
            obtain rfl := Option.some_inj.mp h
            exact Bool.and_eq_true _ _ |>.mp hc
          · rw [if_neg hc] at h
            exact genericRespGo_cg allLines rest j h
        · exact genericRespGo_cg allLines rest j h
    · exact genericRespGo_cg allLines rest j h

/-- A payload found by the generic request scan has both required keys. -/
lemma genericReqGo_keys (allLines : List (List Char)) :
    ∀ (l : List (Nat × List Char)) (j : Json), genericReqGo allLines l = some j →
      pyHasKey j "cart".data = true ∧ pyHasKey j "destination".data = true
  | [], _ => by intro h; exact absurd h (by simp [genericReqGo])
  | (i, line) :: rest, j => by
    intro h
    rw [genericReqGo] at h
    split at h
    · split at h
      · rename_i obj heq
        by_cases hc : (pyTruthy obj && pyHasKey obj "cart".data &&
            pyHasKey obj "destination".data) = true
        · rw [if_pos hc] at h
          obtain rfl := Option.some_inj.mp h
          obtain ⟨h1, h2⟩ := Bool.and_eq_true _ _ |>.mp hc
          exact ⟨(Bool.and_eq_true _ _ |>.mp h1).2, h2⟩
        · rw [if_neg hc] at h
          exact genericReqGo_keys allLines rest j h
      · exact genericReqGo_keys allLines rest j h
    · exact genericReqGo_keys allLines rest j h

/-- Which tier produced a resolved request payload. -/
lemma resolveRequest_cases (lines : List (List Char)) (j : Json)
    (h : resolveRequest lines = some j) :
    reqTier1 lines = some j ∨ reqTier2 lines = some j ∨ reqTier3 lines = some j ∨
      reqTier4 lines = some j ∨ reqTier5 lines = some j := by
  rw [resolveRequest] at h
  cases h1 : reqTier1 lines with
  | some a => rw [h1] at h; exact Or.inl (h : some a = some j)
  | none =>
    rw [h1, resolveRequestFrom2] at h
    cases h2 : reqTier2 lines with
    | some a => rw [h2] at h; exact Or.inr (Or.inl (h : some a = some j))
    | none =>
      rw [h2, resolveRequestFrom3] at h
      cases h3 : reqTier3 lines with
      | some a => rw [h3] at h; exact Or.inr (Or.inr (Or.inl (h : some a = some j)))
      | none =>
        rw [h3, resolveRequestFrom4] at h
        cases h4 : reqTier4 lines with
        | some a => rw [h4] at h; exact Or.inr (Or.inr (Or.inr (Or.inl (h : some a = some j))))
        | none =>
          rw [h4, resolveRequestFrom5] at h
          exact Or.inr (Or.inr (Or.inr (Or.inr h)))

/-- Which tier produced a resolved response payload. -/
lemma resolveResponse_cases (lines : List (List Char)) (j : Json)
    (h : resolveResponse lines = some j) :
    respTier1 lines = some j ∨ respTier2 lines = some j ∨ respTier3 lines = some j ∨
      respTier4 lines = some j ∨ respTier5 lines = some j := by
  rw [resolveResponse] at h
  cases h1 : respTier1 lines with
  | some a => rw [h1] at h; exact Or.inl (h : some a = some j)
  | none =>
    rw [h1, resolveResponseFrom2] at h
    cases h2 : respTier2 lines with
    | some a => rw [h2] at h; exact Or.inr (Or.inl (h : some a = some j))
    | none =>
      rw [h2, resolveResponseFrom3] at h
      cases h3 : respTier3 lines with
      | some a => rw [h3] at h; exact Or.inr (Or.inr (Or.inl (h : some a = some j)))
      | none =>
        rw [h3, resolveResponseFrom4] at h
        cases h4 : respTier4 lines with
        | some a => rw [h4] at h; exact Or.inr (Or.inr (Or.inr (Or.inl (h : some a = some j))))
        | none =>
          rw [h4, resolveResponseFrom5] at h
          exact Or.inr (Or.inr (Or.inr (Or.inr h)))

/-- A resolved request payload always carries the top-level `cart` key. -/
lemma resolveRequest_cart (lines : List (List Char)) (j : Json)
    (h : resolveRequest lines = some j) : pyHasKey j "cart".data = true := by
  rcases resolveRequest_cases lines j h with h | h | h | h | h
  · rw [reqTier1] at h
    exact List.all_eq_true.mp (extract_obj_keys _ _ _ _ j h).2 _
      (List.mem_cons_self _ _)
  · rw [reqTier2] at h
    exact List.all_eq_true.mp (extract_obj_keys _ _ _ _ j h).2 _
      (List.mem_cons_self _ _)
  · rw [reqTier3] at h
    exact List.all_eq_true.mp (extract_obj_keys _ _ _ _ j h).2 _
      (List.mem_cons_self _ _)
  · rw [reqTier4] at h
    exact List.all_eq_true.mp (extract_obj_keys _ _ _ _ j h).2 _
      (List.mem_cons_self _ _)
  · rw [reqTier5] at h
    exact (genericReqGo_keys lines _ j h).1

/-- A resolved response payload is the empty dict or deeply contains
`carrierGroups`. -/
lemma resolveResponse_cg (lines : List (List Char)) (j : Json)
    (h : resolveResponse lines = some j) :
    j = Json.obj [] ∨ json_contains_carrier_groups j = true := by
  rcases resolveResponse_cases lines j h with h | h | h | h | h
  · exact cgFilter_extract_inv _ _ _ _ (by rw [respTier1] at h; exact h)
  · exact cgFilter_extract_inv _ _ _ _ (by rw [respTier2] at h; exact h)
  · exact cgFilter_extract_inv _ _ _ _ (by rw [respTier3] at h; exact h)
  · exact cgFilter_extract_inv _ _ _ _ (by rw [respTier4] at h; exact h)
  · exact Or.inr (genericRespGo_cg lines _ j (by rw [respTier5] at h; exact h)).2

/-- C3 (amended): whenever `parse_log_file` resolves both payloads (and so
returns without raising), the RequestPayload is non-null and has the
top-level key `cart`, and the ResponsePayload is non-null and either is the
empty JSON object (which the truthiness-guarded filter never inspects) or
contains `carrierGroups` at some depth. -/
theorem resolved_payload_invariants (lines : List (List Char)) (req resp : Json)
    (h : resolvePayloads lines = Except.ok (req, resp)) :
    pyHasKey req "cart".data = true ∧
      (resp = Json.obj [] ∨ json_contains_carrier_groups resp = true) := by
  rw [resolvePayloads] at h
  cases hr : resolveRequest lines with
  | none => rw [hr] at h; exact absurd h (by simp)
  | some req' =>
    rw [hr] at h
    cases hp : resolveResponse lines with
    | none => rw [hp] at h; exact absurd h (by simp)
    | some resp' =>
      rw [hp] at h
      obtain ⟨h1, h2⟩ : req' = req ∧ resp' = resp :=
        Prod.mk.injEq _ _ _ _ ▸ Except.ok.inj h
      subst h1; subst h2
      exact ⟨resolveRequest_cart lines req' hr, resolveResponse_cg lines resp' hp⟩

def c3bLines : List (List Char) :=
  ["Converted shopify request to".data,
  "\x7b\"cart\": 1, \"destination\": 2\x7d".data,
  "[RESPONSE]:".data,
  "\x7b\"carrierGroups\": []\x7d".data]

/-- Witness for the amended C3 at a concrete log whose response payload does
carry `carrierGroups`. -/
theorem resolved_payload_invariants_witness :
    resolvePayloads c3bLines = Except.ok
      (Json.obj [("cart".data, Json.num ['1']), ("destination".data, Json.num ['2'])],
        Json.obj [("carrierGroups".data, Json.arr [])]) ∧
      (pyHasKey (Json.obj [("cart".data, Json.num ['1']),
          ("destination".data, Json.num ['2'])]) "cart".data = true ∧
        ((Json.obj [("carrierGroups".data, Json.arr [])] : Json) = Json.obj [] ∨
          json_contains_carrier_groups
            (Json.obj [("carrierGroups".data, Json.arr [])]) = true)) :=
  ⟨rfl, resolved_payload_invariants c3bLines _ _ rfl⟩

/-- C6: at any position not preceded by an unconsumed backslash
(`escape_next` clear), the sanitizer loop rewrites control characters as
specified — inside a string literal a raw newline becomes `\n`, a raw
carriage return becomes `\r`, and any other control character becomes one
space; outside a string literal a carriage return is dropped, any other
control character is dropped unless it is a newline or tab, and newline and
tab are preserved. -/
theorem sanitize_control_char_cases (c : Char) (rest : List Char) :
    (c.toNat < 32 → c ≠ '\n' → c ≠ '\r' →
      sanLoop true false (c :: rest) = ' ' :: sanLoop true false rest) ∧
    sanLoop true false ('\n' :: rest) = '\\' :: 'n' :: sanLoop true false rest ∧
    sanLoop true false ('\r' :: rest) = '\\' :: 'r' :: sanLoop true false rest ∧
    sanLoop false false ('\r' :: rest) = sanLoop false false rest ∧
    (c.toNat < 32 → c ≠ '\n' → c ≠ '\t' →
      sanLoop false false (c :: rest) = sanLoop false false rest) ∧
    sanLoop false false ('\n' :: rest) = '\n' :: sanLoop false false rest ∧
    sanLoop false false ('\t' :: rest) = '\t' :: sanLoop false false rest := by
  have hbs : c.toNat < 32 → c ≠ '\\' := by
    intro h he; subst he; exact absurd h (by decide)
  have hq : c.toNat < 32 → c ≠ '"' := by
    intro h he; subst he; exact absurd h (by decide)
  refine ⟨?_, rfl, rfl, rfl, ?_, rfl, rfl⟩
  · intro h1 h2 h3
    rw [sanLoop, if_neg (hbs h1), if_neg (hq h1), if_pos rfl, if_neg h2, if_neg h3,
      if_pos h1]
  · intro h1 h2 h3
    rw [sanLoop, if_neg (hbs h1), if_neg (hq h1)]
    by_cases hr : c = '\r'
    · rw [if_neg (by simp), if_pos hr]
    · rw [if_neg (by simp), if_neg hr, if_pos ⟨h1, h2, h3⟩]

/-- Witness for C6 at concrete characters (control char `\x01` inside and
outside a string, and the fixed newline / carriage-return / tab cases). -/
theorem sanitize_control_char_cases_witness :
    sanLoop true false ['\x01'] = [' '] ∧
      sanLoop true false ['\n'] = ['\\', 'n'] ∧
      sanLoop true false ['\r'] = ['\\', 'r'] ∧
      sanLoop false false ['\r'] = [] ∧
      sanLoop false false ['\x01'] = [] ∧
      sanLoop false false ['\n'] = ['\n'] ∧
      sanLoop false false ['\t'] = ['\t'] :=
  ⟨(sanitize_control_char_cases '\x01' []).1 (by decide) (by decide) (by decide),
    (sanitize_control_char_cases '\x01' []).2.1,
    (sanitize_control_char_cases '\x01' []).2.2.1,
    (sanitize_control_char_cases '\x01' []).2.2.2.1,
    (sanitize_control_char_cases '\x01' []).2.2.2.2.1 (by decide) (by decide) (by decide),
    (sanitize_control_char_cases '\x01' []).2.2.2.2.2.1,
    (sanitize_control_char_cases '\x01' []).2.2.2.2.2.2⟩

/-- One unfolding step of the sanitizer loop with `escape_next` clear. -/
lemma sanLoop_cons_false (inS : Bool) (c : Char) (rest : List Char) :
    sanLoop inS false (c :: rest) =
      if c = '\\' then c :: sanLoop inS true rest
      else if c = '"' then c :: sanLoop (!inS) false rest
      else if inS then
        (if c = '\n' then '\\' :: 'n' :: sanLoop inS false rest
         else if c = '\r' then '\\' :: 'r' :: sanLoop inS false rest
         else if c.toNat < 32 then ' ' :: sanLoop inS false rest
         else c :: sanLoop inS false rest)
      else
        (if c = '\r' then sanLoop inS false rest
         else if c.toNat < 32 ∧ c ≠ '\n' ∧ c ≠ '\t' then sanLoop inS false rest
         else c :: sanLoop inS false rest) := rfl

/-- The sanitizer loop is idempotent from any scan state: every character
it emits is passed through unchanged by a second pass in the same state. -/
lemma sanLoop_idem : ∀ (cs : List Char) (inS esc : Bool),
    sanLoop inS esc (sanLoop inS esc cs) = sanLoop inS esc cs
  | [], _, esc => by cases esc <;> rfl
  | c :: rest, inS, true => by
    show c :: sanLoop inS false (sanLoop inS false rest) = c :: sanLoop inS false rest
    rw [sanLoop_idem rest inS false]
  | c :: rest, inS, false => by
    rw [sanLoop_cons_false]
    by_cases h1 : c = '\\'
    · rw [if_pos h1]; subst h1
      rw [sanLoop_cons_false, if_pos rfl]
      show '\\' :: sanLoop inS true (sanLoop inS true rest) = _
      rw [sanLoop_idem rest inS true]
    · rw [if_neg h1]
      by_cases h2 : c = '"'
      · rw [if_pos h2]; subst h2
        rw [sanLoop_cons_false, if_neg (by decide), if_pos rfl,
          sanLoop_idem rest (!inS) false]
      · rw [if_neg h2]
        cases inS with
        | true =>
          rw [if_pos rfl]
          by_cases h3 : c = '\n'
          · rw [if_pos h3]
            rw [sanLoop_cons_false, if_pos rfl]
            show '\\' :: 'n' :: sanLoop true false (sanLoop true false rest) = _
            rw [sanLoop_idem rest true false]
          · rw [if_neg h3]
            by_cases h4 : c = '\r'
            · rw [if_pos h4]
              rw [sanLoop_cons_false, if_pos rfl]
              show '\\' :: 'r' :: sanLoop true false (sanLoop true false rest) = _
              rw [sanLoop_idem rest true false]
            · rw [if_neg h4]
              by_cases h5 : c.toNat < 32
              · rw [if_pos h5]
                rw [sanLoop_cons_false, if_neg (by decide), if_neg (by decide),
                  if_pos rfl, if_neg (by decide), if_neg (by decide),
                  if_neg (by decide), sanLoop_idem rest true false]
              · rw [if_neg h5]
                rw [sanLoop_cons_false, if_neg h1, if_neg h2, if_pos rfl,
                  if_neg h3, if_neg h4, if_neg h5, sanLoop_idem rest true false]
        | false =>
          rw [if_neg (by decide)]
          by_cases h3 : c = '\r'
          · rw [if_pos h3]
            exact sanLoop_idem rest false false
          · rw [if_neg h3]
            by_cases h4 : c.toNat < 32 ∧ c ≠ '\n' ∧ c ≠ '\t'
            · rw [if_pos h4]
              exact sanLoop_idem rest false false
            · rw [if_neg h4]
              rw [sanLoop_cons_false, if_neg h1, if_neg h2, if_neg (by decide),
                if_neg h3, if_neg h4, sanLoop_idem rest false false]

/-- The sanitizer loop introduces no ESC character: its output characters
are input characters or the fixed characters `\`, `n`, `r`, space. -/
lemma sanLoop_no_esc : ∀ (cs : List Char) (inS esc : Bool),
    '\x1b' ∉ cs → '\x1b' ∉ sanLoop inS esc cs
  | [], _, esc, _ => by cases esc <;> simp [sanLoop]
  | c :: rest, inS, true, h => by
    rw [List.mem_cons, not_or] at h
    show '\x1b' ∉ c :: sanLoop inS false rest
    rw [List.mem_cons, not_or]
    exact ⟨h.1, sanLoop_no_esc rest inS false h.2⟩
  | c :: rest, inS, false, h => by
    rw [List.mem_cons, not_or] at h
    obtain ⟨h1, h2⟩ := h
    have ihT := sanLoop_no_esc rest inS true h2
    have ihF := sanLoop_no_esc rest inS false h2
    have ihN := sanLoop_no_esc rest (!inS) false h2
    rw [sanLoop_cons_false]
    split_ifs <;>
      first
        | exact ihF
        | (rw [List.mem_cons, not_or]
           exact ⟨by first | exact h1 | decide,
             by first | exact ihT | exact ihF | exact ihN⟩)
        | (rw [List.mem_cons, not_or]
           refine ⟨by decide, ?_⟩
           rw [List.mem_cons, not_or]
           exact ⟨by decide, ihF⟩)

/-- No ANSI match can start at a non-ESC character. -/
lemma ansiRest_none (c : Char) (hc : c ≠ '\x1b') (rest : List Char) :
    ansiRest (c :: rest) = none := by
  unfold ansiRest
  split
  · rename_i heq
    exact absurd (List.cons.injEq .. ▸ heq :
      c = '\x1b' ∧ _ ).1 hc
  · rfl

/-- ANSI stripping is the identity on ESC-free text. -/
lemma stripAnsiF_no_esc : ∀ (n : Nat) (cs : List Char), '\x1b' ∉ cs →
    stripAnsiF n cs = cs
  | 0, _, _ => rfl
  | _ + 1, [], _ => rfl
  | n + 1, c :: rest, h => by
    rw [List.mem_cons, not_or] at h
    rw [stripAnsiF, ansiRest_none c (fun e => h.1 e.symm) rest,
      stripAnsiF_no_esc n rest h.2]

/-- Membership survives the head when the head is a different character. -/
lemma mem_tail {x c : Char} {l : List Char} (h : x ∈ c :: l) (hne : c ≠ x) :
    x ∈ l := by
  rcases List.mem_cons.mp h with he | hm
  · exact absurd he.symm hne
  · exact hm

/-- A character failing the predicate survives `dropWhile`. -/
lemma mem_dropWhile_of_neg (p : Char → Bool) (x : Char) :
    ∀ l : List Char, x ∈ l → p x = false → x ∈ l.dropWhile p
  | [], h, _ => absurd h (by simp)
  | a :: l, h, hp => by
    rw [List.dropWhile_cons]
    by_cases ha : p a = true
    · rw [if_pos ha]
      rcases List.mem_cons.mp h with he | hm
      · subst he; exact absurd ha (by rw [hp]; decide)
      · exact mem_dropWhile_of_neg p x l hm hp
    · rw [if_neg ha]
      exact h

/-- ESC is not JSON whitespace, so it survives token-boundary skipping. -/
lemma skipWs_esc {cs : List Char} (h : '\x1b' ∈ cs) : '\x1b' ∈ skipWs cs :=
  mem_dropWhile_of_neg isJsonWs '\x1b' cs h (by decide)

/-- ESC survives a consumed literal that does not contain it. -/
lemma dropLit_esc (lit cs r : List Char) (h : dropLit lit cs = some r)
    (hlit : '\x1b' ∉ lit) (hm : '\x1b' ∈ cs) : '\x1b' ∈ r := by
  rw [dropLit] at h
  by_cases hp : lit.isPrefixOf cs = true
  · rw [if_pos hp] at h
    obtain ⟨t, ht⟩ := List.isPrefixOf_iff_prefix.mp hp
    obtain rfl := Option.some_inj.mp h
    subst ht
    rw [List.drop_left]
    rcases List.mem_append.mp hm with h1 | h1
    · exact absurd h1 hlit
    · exact h1
  · rw [if_neg hp] at h; exact absurd h (by simp)

/-- ESC survives the optional fraction group. -/
lemma tryFrac_esc (cs f r : List Char) (h : tryFrac cs = some (f, r))
    (hm : '\x1b' ∈ cs) : '\x1b' ∈ r := by
  unfold tryFrac at h
  split at h
  · rename_i t
    split at h
    · exact absurd h (by simp)
    · obtain ⟨h1, h2⟩ := Prod.mk.injEq .. ▸ Option.some_inj.mp h
      rw [← h2]
      exact mem_dropWhile_of_neg _ _ t (mem_tail hm (by decide)) (by decide)
  · exact absurd h (by simp)

/-- ESC survives the optional exponent group. -/
lemma tryExp_esc (cs : List Char) (p : List Char × List Char)
    (h : tryExp cs = some p) (hm : '\x1b' ∈ cs) : '\x1b' ∈ p.2 := by
  unfold tryExp at h
  split at h
  · rename_i e t
    by_cases he : e = 'e' ∨ e = 'E'
    · rw [if_pos he] at h
      have hmt : '\x1b' ∈ t := mem_tail hm
        (by rcases he with he | he <;> (subst he; decide))
      split at h
      · rename_i u
        split at h
        · exact absurd h (by simp)
        · obtain rfl := Option.some_inj.mp h
          exact mem_dropWhile_of_neg _ _ u (mem_tail hmt (by decide)) (by decide)
      · rename_i u
        split at h
        · exact absurd h (by simp)
        · obtain rfl := Option.some_inj.mp h
          exact mem_dropWhile_of_neg _ _ u (mem_tail hmt (by decide)) (by decide)
      · split at h
        · exact absurd h (by simp)
        · obtain rfl := Option.some_inj.mp h
          exact mem_dropWhile_of_neg _ _ t hmt (by decide)
    · rw [if_neg he] at h; exact absurd h (by simp)
  · exact absurd h (by simp)

/-- ESC survives the fraction/exponent tail of a number lexeme. -/
lemma parseNumTail_esc (ip cs : List Char) (p : List Char × List Char)
    (h : parseNumTail ip cs = some p) (hm : '\x1b' ∈ cs) : '\x1b' ∈ p.2 := by
  unfold parseNumTail at h
  split at h
  · rename_i f r1 hf
    have hr1 : '\x1b' ∈ r1 := tryFrac_esc cs f r1 hf hm
    split at h
    · rename_i x r2 hx
      obtain rfl := Option.some_inj.mp h
      exact tryExp_esc r1 (x, r2) hx hr1
    · obtain rfl := Option.some_inj.mp h
      exact hr1
  · split at h
    · rename_i x r2 hx
      obtain rfl := Option.some_inj.mp h
      exact tryExp_esc cs (x, r2) hx hm
    · obtain rfl := Option.some_inj.mp h
      exact hm

/-- ESC survives the unsigned part of a number lexeme. -/
lemma parseNumCore_esc (cs : List Char) (p : List Char × List Char)
    (h : parseNumCore cs = some p) (hm : '\x1b' ∈ cs) : '\x1b' ∈ p.2 := by
  unfold parseNumCore at h
  split at h
  · exact absurd h (by simp)
  · rename_i d t
    by_cases hd : d = '0'
    · rw [if_pos hd] at h
      exact parseNumTail_esc _ t p h (mem_tail hm (by rw [hd]; decide))
    · rw [if_neg hd] at h
      by_cases hdig : isDigitC d = true
      · rw [if_pos hdig] at h
        refine parseNumTail_esc _ _ p h ?_
        refine mem_dropWhile_of_neg _ _ t (mem_tail hm ?_) (by decide)
        intro e
        rw [e] at hdig
        exact absurd hdig (by decide)
      · rw [if_neg hdig] at h
        exact absurd h (by simp)

/-- ESC survives a whole number lexeme. -/
lemma parseNum_esc (cs : List Char) (p : List Char × List Char)
    (h : parseNum cs = some p) (hm : '\x1b' ∈ cs) : '\x1b' ∈ p.2 := by
  unfold parseNum at h
  split at h
  · rename_i t
    obtain ⟨q, hq, hq2⟩ := Option.map_eq_some'.mp h
    rw [← hq2]
    exact parseNumCore_esc t q hq (mem_tail hm (by decide))
  · exact parseNumCore_esc cs p h hm

/-- Hex digits are not ESC. -/
lemma hex_ne_esc {c : Char} (h : isHexC c = true) : c ≠ '\x1b' :=
  fun e => by rw [e] at h; exact absurd h (by decide)

/-- Recognized escape letters are not ESC. -/
lemma decodeEsc_ne_esc {c d : Char} (h : decodeEsc c = some d) : c ≠ '\x1b' := by
  intro e
  rw [e, show decodeEsc '\x1b' = none from rfl] at h
  exact absurd h (by simp)

/-- ESC survives a string literal body (strict mode rejects raw control
characters, ESC included, inside strings). -/
lemma parseStrF_esc : ∀ (n : Nat) (cs : List Char) (p : List Char × List Char),
    parseStrF n cs = some p → '\x1b' ∈ cs → '\x1b' ∈ p.2
  | 0, _, _ => by intro h _; exact absurd h (by simp [parseStrF])
  | _ + 1, [], _ => by intro h _; exact absurd h (by simp [parseStrF])
  | n + 1, c :: rest, p => by
    intro h hm
    rw [parseStrF.eq_def] at h
    simp only [] at h
    by_cases h1 : c = '"'
    · rw [if_pos h1] at h
      obtain rfl := Option.some_inj.mp h
      exact mem_tail hm (by rw [h1]; decide)
    · rw [if_neg h1] at h
      by_cases h2 : c = '\\'
      · rw [if_pos h2] at h
        have hmr : '\x1b' ∈ rest := mem_tail hm (by rw [h2]; decide)
        split at h
        · exact absurd h (by simp)
        · split at h
          · rename_i r2 c1 c2 c3 c4 r3
            by_cases hx : (isHexC c1 && isHexC c2 && isHexC c3 && isHexC c4) = true
            · rw [if_pos hx] at h
              obtain ⟨⟨⟨hx1, hx2⟩, hx3⟩, hx4⟩ := by
                simpa only [Bool.and_eq_true] using hx
              obtain ⟨q, hq, hq2⟩ := Option.map_eq_some'.mp h
              rw [← hq2]
              refine parseStrF_esc n r3 q hq ?_
              exact mem_tail (mem_tail (mem_tail (mem_tail
                (mem_tail hmr (by decide)) (hex_ne_esc hx1)) (hex_ne_esc hx2))
                (hex_ne_esc hx3)) (hex_ne_esc hx4)
            · rw [if_neg hx] at h
              exact absurd h (by simp)
          · exact absurd h (by simp)
        · split at h
          · rename_i d hd
            obtain ⟨q, hq, hq2⟩ := Option.map_eq_some'.mp h
            rw [← hq2]
            exact parseStrF_esc n _ q hq (mem_tail hmr (decodeEsc_ne_esc hd))
          · exact absurd h (by simp)
      · rw [if_neg h2] at h
        by_cases h3 : c.toNat < 32
        · rw [if_pos h3] at h
          exact absurd h (by simp)
        · rw [if_neg h3] at h
          obtain ⟨q, hq, hq2⟩ := Option.map_eq_some'.mp h
          rw [← hq2]
          refine parseStrF_esc n rest q hq (mem_tail hm ?_)
          intro e
          rw [e] at h3
          exact absurd (by decide) h3

/-- The literal suffixes consumed by the value dispatcher are ESC-free. -/
lemma infinity_drop_esc (rest : List Char)
    (hp : "Infinity".data.isPrefixOf rest = true) (hm : '\x1b' ∈ rest) :
    '\x1b' ∈ rest.drop 8 := by
  obtain ⟨t, ht⟩ := List.isPrefixOf_iff_prefix.mp hp
  subst ht
  rw [show (8 : Nat) = "Infinity".data.length from rfl, List.drop_left]
  rcases List.mem_append.mp hm with h1 | h1
  · exact absurd h1 (by decide)
  · exact h1

mutual

/-- ESC survives a parsed JSON value: every consumed character is a
non-control token character, a string character (strict mode), or
whitespace. -/
lemma parseValueF_esc : ∀ (n : Nat) (cs : List Char) (p : Json × List Char),
    parseValueF n cs = some p → '\x1b' ∈ cs → '\x1b' ∈ p.2
  | 0, _, _ => by intro h _; exact absurd h (by simp [parseValueF])
  | n + 1, cs, p => by
    intro h hm
    rw [parseValueF.eq_def] at h
    simp only [] at h
    split at h
    · exact absurd h (by simp)
    · rename_i c rest heq
      have hmr : '\x1b' ∈ c :: rest := heq ▸ skipWs_esc hm
      by_cases h1 : c = '{'
      · rw [if_pos h1] at h
        have hrest : '\x1b' ∈ rest := mem_tail hmr (by rw [h1]; decide)
        split at h
        · rename_i r heq2
          obtain rfl := Option.some_inj.mp h
          exact mem_tail (heq2 ▸ skipWs_esc hrest) (by decide)
        · obtain ⟨q, hq, hq2⟩ := Option.map_eq_some'.mp h
          rw [← hq2]
          exact parseObjRestF_esc n rest [] q hq hrest
      · rw [if_neg h1] at h
        by_cases h2 : c = '['
        · rw [if_pos h2] at h
          have hrest : '\x1b' ∈ rest := mem_tail hmr (by rw [h2]; decide)
          split at h
          · rename_i r heq2
            obtain rfl := Option.some_inj.mp h
            exact mem_tail (heq2 ▸ skipWs_esc hrest) (by decide)
          · obtain ⟨q, hq, hq2⟩ := Option.map_eq_some'.mp h
            rw [← hq2]
            exact parseArrRestF_esc n rest [] q hq hrest
        · rw [if_neg h2] at h
          by_cases h3 : c = '"'
          · rw [if_pos h3] at h
            have hrest : '\x1b' ∈ rest := mem_tail hmr (by rw [h3]; decide)
            obtain ⟨q, hq, hq2⟩ := Option.map_eq_some'.mp h
            rw [← hq2]
            exact parseStrF_esc _ rest q hq hrest
          · rw [if_neg h3] at h
            by_cases h4 : c = 't'
            · rw [if_pos h4] at h
              obtain ⟨r, hr, hr2⟩ := Option.map_eq_some'.mp h
              rw [← hr2]
              exact dropLit_esc _ rest r hr (by decide)
                (mem_tail hmr (by rw [h4]; decide))
            · rw [if_neg h4] at h
              by_cases h5 : c = 'f'
              · rw [if_pos h5] at h
                obtain ⟨r, hr, hr2⟩ := Option.map_eq_some'.mp h
                rw [← hr2]
                exact dropLit_esc _ rest r hr (by decide)
                  (mem_tail hmr (by rw [h5]; decide))
              · rw [if_neg h5] at h
                by_cases h6 : c = 'n'
                · rw [if_pos h6] at h
                  obtain ⟨r, hr, hr2⟩ := Option.map_eq_some'.mp h
                  rw [← hr2]
                  exact dropLit_esc _ rest r hr (by decide)
                    (mem_tail hmr (by rw [h6]; decide))
                · rw [if_neg h6] at h
                  by_cases h7 : c = 'N'
                  · rw [if_pos h7] at h
                    obtain ⟨r, hr, hr2⟩ := Option.map_eq_some'.mp h
                    rw [← hr2]
                    exact dropLit_esc _ rest r hr (by decide)
                      (mem_tail hmr (by rw [h7]; decide))
                  · rw [if_neg h7] at h
                    by_cases h8 : c = 'I'
                    · rw [if_pos h8] at h
                      obtain ⟨r, hr, hr2⟩ := Option.map_eq_some'.mp h
                      rw [← hr2]
                      exact dropLit_esc _ rest r hr (by decide)
                        (mem_tail hmr (by rw [h8]; decide))
                    · rw [if_neg h8] at h
                      by_cases h9 : (c = '-' && "Infinity".data.isPrefixOf rest) = true
                      · rw [if_pos h9] at h
                        obtain ⟨h9a, h9b⟩ := Bool.and_eq_true _ _ |>.mp h9
                        obtain rfl := Option.some_inj.mp h
                        exact infinity_drop_esc rest h9b
                          (mem_tail hmr (by rw [of_decide_eq_true h9a]; decide))
                      · rw [if_neg h9] at h
                        obtain ⟨q, hq, hq2⟩ := Option.map_eq_some'.mp h
                        rw [← hq2]
                        exact parseNum_esc _ q hq hmr

/-- ESC survives the member list of an object body. -/
lemma parseObjRestF_esc : ∀ (n : Nat) (cs : List Char)
    (acc : List (List Char × Json)) (p : List (List Char × Json) × List Char),
    parseObjRestF n cs acc = some p → '\x1b' ∈ cs → '\x1b' ∈ p.2
  | 0, _, _, _ => by intro h _; exact absurd h (by simp [parseObjRestF])
  | n + 1, cs, acc, p => by
    intro h hm
    rw [parseObjRestF.eq_def] at h
    simp only [] at h
    split at h
    · rename_i t heq
      have hmt : '\x1b' ∈ t := mem_tail (heq ▸ skipWs_esc hm) (by decide)
      split at h
      · exact absurd h (by simp)
      · rename_i key r1 hstr
        have hr1 : '\x1b' ∈ r1 := parseStrF_esc _ t (key, r1) hstr hmt
        split at h
        · rename_i r2 heq2
          have hr2 : '\x1b' ∈ r2 := mem_tail (heq2 ▸ skipWs_esc hr1) (by decide)
          split at h
          · exact absurd h (by simp)
          · rename_i v r3 hval
            have hr3 : '\x1b' ∈ r3 := parseValueF_esc n r2 (v, r3) hval hr2
            split at h
            · rename_i r4 heq3
              exact parseObjRestF_esc n r4 _ p h
                (mem_tail (heq3 ▸ skipWs_esc hr3) (by decide))
            · rename_i r4 heq3
              obtain rfl := Option.some_inj.mp h
              exact mem_tail (heq3 ▸ skipWs_esc hr3) (by decide)
            · exact absurd h (by simp)
        · exact absurd h (by simp)
    · exact absurd h (by simp)

/-- ESC survives the element list of an array body. -/
lemma parseArrRestF_esc : ∀ (n : Nat) (cs : List Char) (acc : List Json)
    (p : List Json × List Char),
    parseArrRestF n cs acc = some p → '\x1b' ∈ cs → '\x1b' ∈ p.2
  | 0, _, _, _ => by intro h _; exact absurd h (by simp [parseArrRestF])
  | n + 1, cs, acc, p => by
    intro h hm
    rw [parseArrRestF.eq_def] at h
    simp only [] at h
    split at h
    · exact absurd h (by simp)
    · rename_i v r1 hval
      have hr1 : '\x1b' ∈ r1 := parseValueF_esc n cs (v, r1) hval hm
      split at h
      · rename_i r2 heq2
        exact parseArrRestF_esc n r2 _ p h
          (mem_tail (heq2 ▸ skipWs_esc hr1) (by decide))
      · rename_i r2 heq2
        obtain rfl := Option.some_inj.mp h
        exact mem_tail (heq2 ▸ skipWs_esc hr1) (by decide)
      · exact absurd h (by simp)

end

/-- Text that `json.loads` accepts contains no ESC character: ESC would
survive the value parse and then fail the only-trailing-whitespace check. -/
lemma jsonLoads_no_esc (cs : List Char) (v : Json) (h : jsonLoads cs = some v) :
    '\x1b' ∉ cs := by
  intro hm
  rw [jsonLoads] at h
  obtain ⟨p, hp, hfin⟩ := Option.bind_eq_some.mp h
  have hr : '\x1b' ∈ p.2 := parseValueF_esc _ cs p hp hm
  have hws : '\x1b' ∈ skipWs p.2 := skipWs_esc hr
  by_cases he : (skipWs p.2).isEmpty = true
  · rw [List.isEmpty_iff.mp he] at hws
    exact absurd hws (by simp)
  · rw [if_neg he] at hfin
    exact absurd hfin (by simp)

/-- C5: on any input that is already valid JSON source (accepted by the
`json.loads` model), `sanitize_json_block` is idempotent — valid JSON has no
ESC characters, so ANSI stripping is the identity, and the character loop
never rewrites its own output a second time. -/
theorem sanitize_idempotent_on_valid_json (cs : List Char)
    (h : (jsonLoads cs).isSome = true) :
    sanitize_json_block (sanitize_json_block cs) = sanitize_json_block cs := by
  obtain ⟨v, hv⟩ := Option.isSome_iff_exists.mp h
  have hesc : '\x1b' ∉ cs := jsonLoads_no_esc cs v hv
  have h1 : sanitize_json_block cs = sanLoop false false cs := by
    rw [sanitize_json_block, stripAnsi, stripAnsiF_no_esc _ cs hesc]
  have hesc2 : '\x1b' ∉ sanLoop false false cs := sanLoop_no_esc cs false false hesc
  rw [h1, sanitize_json_block, stripAnsi,
    stripAnsiF_no_esc _ (sanLoop false false cs) hesc2, sanLoop_idem]

/-- Witness for C5: a concrete valid JSON text (with a trailing carriage
return, which the first pass removes) on which a second sanitization is the
identity. -/
theorem sanitize_idempotent_on_valid_json_witness :
    (jsonLoads "\x7b\"a\": 1\x7d\x0d".data).isSome = true ∧
      sanitize_json_block (sanitize_json_block "\x7b\"a\": 1\x7d\x0d".data) =
        sanitize_json_block "\x7b\"a\": 1\x7d\x0d".data :=
  ⟨rfl, sanitize_idempotent_on_valid_json _ rfl⟩

/-- C8: for every cart item the Field Normalizer accepts, the `dimensions`
field equals `"N/A"` exactly when at least one of the resolved length,
width, height attribute values is missing (`None`) or falsy, and otherwise
equals the exact concatenation `length ++ "x" ++ width ++ "x" ++ height` of
the f-string renderings. -/
theorem cart_dimensions_iff (item : Json) (ci : CartItem)
    (h : procItem item = some ci) :
    ∃ st : AttrState, attrResolution item = some st ∧
      ((pyTruthy st.length && pyTruthy st.width && pyTruthy st.height) = true →
        ci.dimensions =
          pyStr st.length ++ 'x' :: pyStr st.width ++ 'x' :: pyStr st.height) ∧
      (ci.dimensions = "N/A".data ↔
        ¬ (pyTruthy st.length && pyTruthy st.width && pyTruthy st.height) = true) := by
  rw [procItem] at h
  cases ha : attrResolution item with
  | none => rw [ha] at h; exact absurd h (by simp)
  | some st =>
    rw [ha] at h
    simp only [] at h
    refine ⟨st, rfl, ?_⟩
    split at h
    · obtain rfl := Option.some_inj.mp h
      have hdim : ∀ hc : (pyTruthy st.length && pyTruthy st.width &&
          pyTruthy st.height) = true, dimsOf st =
          pyStr st.length ++ 'x' :: pyStr st.width ++ 'x' :: pyStr st.height :=
        fun hc => by rw [dimsOf, if_pos hc]
      refine ⟨hdim, ?_, ?_⟩
      · intro hd hc
        have hd2 : dimsOf st = "N/A".data := hd
        have hx : 'x' ∈ dimsOf st := by
          rw [hdim hc]
          exact List.mem_append_right _ (List.mem_cons_self _ _)
        rw [hd2] at hx
        exact absurd hx (by decide)
      · intro hc
        show dimsOf st = "N/A".data
        rw [dimsOf, if_neg hc]
    · exact absurd h (by simp)

def c8Item : Json :=
  Json.obj [("sku".data, Json.str "A1".data),
    ("attributes".data, Json.arr
      [Json.obj [("name".data, Json.str "ship_length".data),
        ("value".data, Json.str "10".data)],
       Json.obj [("name".data, Json.str "ship_width".data),
        ("value".data, Json.str "5".data)],
       Json.obj [("name".data, Json.str "ship_height".data),
        ("value".data, Json.str "3".data)]])]

def c8CartItem : CartItem :=
  { product := Json.str "A1".data
    qty := Json.null
    weight := Json.null
    value := Json.null
    shipping_group := Json.str "N/A".data
    dim_group := Json.str "N/A".data
    dimensions := "10x5x3".data }

/-- Witness for C8 on a concrete cart item whose three dimensions resolve
to truthy strings. -/
theorem cart_dimensions_iff_witness :
    procItem c8Item = some c8CartItem ∧
      ∃ st : AttrState, attrResolution c8Item = some st ∧
        ((pyTruthy st.length && pyTruthy st.width && pyTruthy st.height) = true →
          c8CartItem.dimensions =
            pyStr st.length ++ 'x' :: pyStr st.width ++ 'x' :: pyStr st.height) ∧
        (c8CartItem.dimensions = "N/A".data ↔
          ¬ (pyTruthy st.length && pyTruthy st.width && pyTruthy st.height) = true) :=
  ⟨rfl, cart_dimensions_iff c8Item c8CartItem rfl⟩

/-- The blocking/error entry a rate-less carrier dict `cf` with error dict
`ef` produces. -/
def blockedEntry (cf ef : List (List Char × Json)) : MethodEntry :=
  { carrier := pyOr (dGet cf "carrierName".data)
      (pyOr (dGet cf "carrierTitle".data) (Json.str "Unknown Carrier".data))
    service_name := pyOr (dGet cf "carrierTitle".data)
      (pyOr (dGet cf "carrierName".data)
        (pyOr (dGet cf "carrierTitle".data) (Json.str "Unknown Carrier".data)))
    base := Json.null
    final := Json.null
    handling := Json.null
    negotiated := dGetD cf "negotiatedRate".data (Json.bool false)
    address_type := Json.null
    flat_rules := Json.arr []
    change_rules := Json.arr []
    packing := pick_shipments [Json.obj cf]
    blocked_reasons := pyOr (dGet cf "preventRulesApplied".data) (Json.arr [])
    error_message := pyOr (dGet ef "internalErrorMessage".data)
      (pyOr (dGet ef "externalErrorMessage".data) (Json.str [])) }

/-- C9: a carrier whose `rates` value is empty (or missing/falsy) emits
exactly one MethodEntry carrying its prevent rules as `blocked_reasons` and
its internal-else-external error message as `error_message` when at least one
of those is non-empty, and emits no MethodEntry at all when it has neither
prevent rules nor an error message. -/
theorem carrier_empty_rates (cf ef : List (List Char × Json))
    (hrates : pyTruthy (dGet cf "rates".data) = false)
    (herr : pyOr (dGet cf "error".data) (Json.obj []) = Json.obj ef) :
    ((pyTruthy (pyOr (dGet cf "preventRulesApplied".data) (Json.arr [])) ||
        pyTruthy (pyOr (dGet ef "internalErrorMessage".data)
          (pyOr (dGet ef "externalErrorMessage".data) (Json.str [])))) = true →
      ∃ e : MethodEntry, carrierMethods (Json.obj cf) = ([e], false) ∧
        e.blocked_reasons = pyOr (dGet cf "preventRulesApplied".data) (Json.arr []) ∧
        e.error_message = pyOr (dGet ef "internalErrorMessage".data)
          (pyOr (dGet ef "externalErrorMessage".data) (Json.str []))) ∧
    ((pyTruthy (pyOr (dGet cf "preventRulesApplied".data) (Json.arr [])) ||
        pyTruthy (pyOr (dGet ef "internalErrorMessage".data)
          (pyOr (dGet ef "externalErrorMessage".data) (Json.str [])))) = false →
      carrierMethods (Json.obj cf) = ([], false)) := by
  have hR : pyOr (dGet cf "rates".data) (Json.arr []) = Json.arr [] := by
    simp [pyOr, hrates]
  have hE : emptyRatesEntries
      (pyOr (dGet cf "carrierName".data)
        (pyOr (dGet cf "carrierTitle".data) (Json.str "Unknown Carrier".data)))
      (Json.obj cf) =
      some (if (pyTruthy (pyOr (dGet cf "preventRulesApplied".data) (Json.arr [])) ||
          pyTruthy (pyOr (dGet ef "internalErrorMessage".data)
            (pyOr (dGet ef "externalErrorMessage".data) (Json.str [])))) = true then
        [blockedEntry cf ef]
      else []) := by
    simp only [emptyRatesEntries, herr]
    rw [show errMsgOf (Json.obj ef) = some (pyOr (dGet ef "internalErrorMessage".data)
      (pyOr (dGet ef "externalErrorMessage".data) (Json.str []))) from rfl]
    simp only []
    split <;> rfl
  have hC : carrierMethods (Json.obj cf) =
      ((if (pyTruthy (pyOr (dGet cf "preventRulesApplied".data) (Json.arr [])) ||
          pyTruthy (pyOr (dGet ef "internalErrorMessage".data)
            (pyOr (dGet ef "externalErrorMessage".data) (Json.str [])))) = true then
        [blockedEntry cf ef]
      else []), false) := by
    rw [carrierMethods, hR, hE]
    rfl
  constructor
  · intro hcond
    rw [hC, if_pos hcond]
    exact ⟨blockedEntry cf ef, rfl, rfl, rfl⟩
  · intro hcond
    rw [hC, if_neg (by rw [hcond]; simp)]

def c9cf : List (List Char × Json) :=
  [("carrierTitle".data, Json.str "FedEx".data),
   ("rates".data, Json.arr []),
   ("preventRulesApplied".data, Json.arr [Json.str "rule1".data])]

/-- Witness for C9: a carrier with empty `rates`, one prevent rule and no
error object emits exactly one blocking MethodEntry. -/
theorem carrier_empty_rates_witness :
    pyTruthy (dGet c9cf "rates".data) = false ∧
      pyOr (dGet c9cf "error".data) (Json.obj []) = Json.obj [] ∧
      ∃ e : MethodEntry, carrierMethods (Json.obj c9cf) = ([e], false) ∧
        e.blocked_reasons = pyOr (dGet c9cf "preventRulesApplied".data) (Json.arr []) ∧
        e.error_message = pyOr
          (dGet ([] : List (List Char × Json)) "internalErrorMessage".data)
          (pyOr (dGet ([] : List (List Char × Json)) "externalErrorMessage".data)
            (Json.str [])) :=
  ⟨rfl, rfl, (carrier_empty_rates c9cf [] rfl rfl).1 rfl⟩

example : collect_json_from_line_list
    ["\x7d".data, " \x7b \"a\"".data, ": 1 \x7d".data] 0 =
    some (Json.obj [(['a'], Json.num ['1'])]) := rfl

example : extract_json_after_marker
    ["MARK".data, "\x7b\"x\": 1\x7d".data, "MARK".data,
      "\x7b\"cart\": 2, \"destination\": 3\x7d".data]
    "MARK".data ["cart".data, "destination".data] true =
    some (Json.obj [("cart".data, Json.num ['2']),
      ("destination".data, Json.num ['3'])]) := rfl

example : extract_json_after_marker
    ["MARK here \x7b \"a\": \x7b\"b\": 1\x7d \x7d".data, "junk \x7d".data]
    "MARK".data [] true =
    some (Json.obj [(['a'], Json.obj [(['b'], Json.num ['1'])])]) := rfl

example : extract_json_after_marker
    ["MARK".data, "\x7b not json \x7d".data] "MARK".data [] true = none := rfl

example : parse_log_file
    ["Converted WIX request to".data,
     "\x7b\"cart\": \x7b\"items\": []\x7d, \"destination\": \x7b\x7d\x7d".data,
     "Adapting the following rate response to WIX response".data,
     "\x7b\"carrierGroups\": []\x7d".data] =
    Except.ok { ship_from := Json.obj []
                ship_to := Json.obj []
                cart := []
                methods := [] } := rfl
